import Mathlib

/-
Shallow embedding of the hardware-emulation layer of pcbasic_brewer:
  src/pcbasic/basic/sound.py   (tone queues, PLAY / Music Macro Language)
  src/pcbasic/basic/machine.py (memory model, machine ports)

Durations, tempi and exact frequency literals are represented as rationals;
entries of the 12-tone note table `note_freq` (sound.py line 27), which are
irrational reals, are represented symbolically by their table index.
-/

/-! Rational arithmetic written through `mkRat`, so that concrete terms
reduce by kernel computation (this Mathlib marks `Rat.mul` and friends
irreducible, which blocks `decide` on terms built from the field
operations).  The bridge lemmas prove the operations agree with the field
structure of ℚ. -/

def qMul (a b : ℚ) : ℚ := mkRat (a.num * b.num) (a.den * b.den)

def qAdd (a b : ℚ) : ℚ := mkRat (a.num * b.den + b.num * a.den) (a.den * b.den)

def qSub (a b : ℚ) : ℚ := mkRat (a.num * b.den - b.num * a.den) (a.den * b.den)

def qLt (a b : ℚ) : Bool := a.num * b.den < b.num * a.den

def qMax (a b : ℚ) : ℚ := if qLt a b then b else a

def qHalf (a : ℚ) : ℚ := mkRat a.num (a.den * 2)

theorem qMul_eq (a b : ℚ) : qMul a b = a * b := by
  rw [qMul, Rat.mul_def, Rat.normalize_eq_mkRat]

theorem qAdd_eq (a b : ℚ) : qAdd a b = a + b := by
  rw [qAdd, Rat.add_def, Rat.normalize_eq_mkRat]

theorem qSub_eq (a b : ℚ) : qSub a b = a - b := by
  rw [qSub, Rat.sub_def, Rat.normalize_eq_mkRat]

theorem qLt_iff (a b : ℚ) : qLt a b = true ↔ a < b := by
  rw [qLt, Rat.lt_def]
  simp

theorem qMax_eq (a b : ℚ) : qMax a b = max a b := by
  rw [qMax, max_def]
  by_cases h : a < b
  · rw [if_pos ((qLt_iff a b).2 h), if_pos h.le]
  · rw [if_neg (fun hc => h ((qLt_iff a b).1 hc))]
    by_cases h2 : a ≤ b
    · rw [if_pos h2]
      exact le_antisymm h2 (not_lt.1 h)
    · rw [if_neg h2]

theorem qHalf_eq (a : ℚ) : qHalf a = a / 2 := by
  rw [qHalf, Rat.mkRat_eq_div]
  push_cast
  rw [div_mul_eq_div_div, Rat.num_div_den]

/-- Frequency values used by the sound engine.
`Freq.hz q` is an exact numeric frequency (literals such as 0 or 110, and the
rational noise-source base frequencies); `Freq.note i` is the note-table entry
`note_freq[i] = 440 * 2 ^ ((i - 33) / 12)` (sound.py line 27); `Freq.half f`
is `f / 2` (the linked noise-source frequency, sound.py lines 94 and 95). -/
inductive Freq where
  | hz (q : ℚ)
  | note (i : Int)
  | half (f : Freq)
deriving DecidableEq

/-- Division by two of a frequency (sound.py lines 94 and 95): exact on
numeric values, symbolic on note-table entries. -/
def halfFreq : Freq → Freq
  | Freq.hz q => Freq.hz (qHalf q)
  | f => Freq.half f

/-- Whether a frequency value equals 0 (the test `frequency != 0`,
sound.py lines 86 and 91).  Note-table entries are all positive. -/
def freqIsZero : Freq → Bool
  | Freq.hz q => q.num == 0
  | _ => false

/-- The test `frequency < 110.` (sound.py line 86).  For note-table entries,
`note_freq[i] = 440 * 2 ^ ((i - 33) / 12) < 110` holds exactly for `i < 9`
(`note_freq[9] = 440 * 2 ^ (-2) = 110` exactly, also in binary floating
point).  The `half` form never reaches `play_sound`. -/
def freqLt110 : Freq → Bool
  | Freq.hz q => qLt q (mkRat 110 1)
  | Freq.note i => i < 9
  | Freq.half _ => false

/-- A tone event: the payload of `signals.Event(signals.AUDIO_TONE, ...)`
(sound.py line 89). -/
structure Event where
  frequency : Freq
  duration : ℚ
  fill : ℚ
  loopFlag : Bool
  volume : Int
deriving DecidableEq

/-- The `syntax` capability selected in `Sound.__init__` (sound.py lines 60
to 63): `'tandy'`, `'pcjr'` or `''`. -/
inductive Caps where
  | tandy
  | pcjr
  | plain
deriving DecidableEq

/-- Base frequency for the noise source, `3579545. / 1024.`
(sound.py line 23). -/
def base_freq : ℚ := mkRat 3579545 1024

/-- State of the `Sound` object that the embedded operations touch:
the four tone queues (voices 0 to 2 and the noise queue 3), the noise-source
frequency table, the capability flags and the foreground flag. -/
structure SoundState where
  queues : Nat → List Event
  noiseFreq : Nat → Freq
  capabilities : Caps
  sound_on : Bool
  foreground : Bool

/-- Initial noise-source frequencies (sound.py lines 55 to 57):
`[base / 1, base / 2, base / 4, 0, base / 1, base / 2, base / 4, 0]`. -/
def initNoiseFreq : Nat → Freq := fun i =>
  if i = 0 then Freq.hz base_freq
  else if i = 1 then Freq.hz (qHalf base_freq)
  else if i = 2 then Freq.hz (qHalf (qHalf base_freq))
  else if i = 3 then Freq.hz 0
  else if i = 4 then Freq.hz base_freq
  else if i = 5 then Freq.hz (qHalf base_freq)
  else if i = 6 then Freq.hz (qHalf (qHalf base_freq))
  else Freq.hz 0

/-- The condition guarding the low-frequency clamp (sound.py lines 84 to 86):
capabilities is tandy, or pcjr with SOUND ON. -/
def lowClampOn (caps : Caps) (sound_on : Bool) : Bool :=
  caps == Caps.tandy || (caps == Caps.pcjr && sound_on)

/-- The queue `put` primitive: append one event to a voice queue
(`self.tone_queue[voice].put(tone)`, sound.py line 90). -/
def tone_queue_put (st : SoundState) (voice : Nat) (ev : Event) : SoundState :=
  { st with queues := fun w => if w = voice then st.queues voice ++ [ev] else st.queues w }

/-- The pcjr and tandy low-frequency clamp (sound.py lines 84 to 88):
nonzero frequencies below 110 Hz are played as 110 Hz. -/
def clamp110 (caps : Caps) (sound_on : Bool) (frequency : Freq) : Freq :=
  if lowClampOn caps sound_on && freqLt110 frequency && !(freqIsZero frequency)
  then Freq.hz 110 else frequency

/-- The tail of `Sound.play_sound_no_wait` (sound.py lines 91 to 95): an
enqueue of a nonzero frequency on voice 2 resets the two linked noise-source
frequencies to half the tone frequency. -/
def noise_link_update (st : SoundState) (frequency : Freq) (voice : Nat) :
    SoundState :=
  if voice = 2 && !(freqIsZero frequency) then
    { st with noiseFreq := fun i =>
        if i = 3 then halfFreq frequency
        else if i = 7 then halfFreq frequency
        else st.noiseFreq i }
  else st

/-- `Sound.play_sound_no_wait` (sound.py lines 80 to 95).  The negative-clamp
branch (line 82) is unrepresentable here because every caller passes 0 or a
note-table value; pcjr and tandy play nonzero frequencies below 110 Hz as
110 Hz (`clamp110`); the event is enqueued; then the linked noise-source
frequencies are updated (`noise_link_update`). -/
def play_sound_no_wait (st : SoundState) (frequency : Freq) (duration : ℚ)
    (fill : ℚ) (loopFlag : Bool) (voice : Nat) (volume : Int) : SoundState :=
  noise_link_update
    (tone_queue_put st voice
      { frequency := clamp110 st.capabilities st.sound_on frequency,
        duration := duration, fill := fill,
        loopFlag := loopFlag, volume := volume })
    (clamp110 st.capabilities st.sound_on frequency) voice

/-- `Queue.qsize` of a voice queue (the raw queue depth). -/
def qsize (st : SoundState) (voice : Nat) : Int := (st.queues voice).length

/-- `Sound.queue_length` (sound.py lines 134 to 139):
`max(0, self.tone_queue[voice].qsize() - 1)`. -/
def queue_length (st : SoundState) (voice : Nat) : Int :=
  max 0 (qsize st voice - 1)

/-- The guard of the `while` loop of `Sound.wait_music` (sound.py lines 104
to 109): the call keeps waiting exactly while some of the three tone voices
has adjusted queue length above `wait_length`. -/
def wait_music_waits (st : SoundState) (wait_length : Int) : Bool :=
  queue_length st 0 > wait_length || queue_length st 1 > wait_length ||
    queue_length st 2 > wait_length

/-- `Sound.play_sound` (sound.py lines 98 to 102): enqueue, then
`wait_music(15)`.  The wait suspends the interpreter but does not change any
state modelled here (the queues are drained by the external renderer), so the
state transformation is that of the enqueue. -/
def play_sound (st : SoundState) (frequency : Freq) (duration : ℚ)
    (fill : ℚ) (loopFlag : Bool) (voice : Nat) (volume : Int) : SoundState :=
  play_sound_no_wait st frequency duration fill loopFlag voice volume

/-- Whether the `wait_music(15)` call inside `Sound.play_sound` blocks (does
not return immediately): the wait guard evaluated on the post-enqueue state. -/
def play_sound_blocks (st : SoundState) (frequency : Freq) (duration : ℚ)
    (fill : ℚ) (loopFlag : Bool) (voice : Nat) (volume : Int) : Bool :=
  wait_music_waits
    (play_sound_no_wait st frequency duration fill loopFlag voice volume) 15

/-- A fixed dummy event used to build concrete queue states in
counterexamples and witnesses. -/
def dummyEvent : Event :=
  { frequency := Freq.hz 0, duration := 1, fill := 1, loopFlag := false, volume := 15 }

/-- A concrete sound state with prescribed queue contents for voices 0 to 3
and default remaining fields. -/
def mkSound (q0 q1 q2 q3 : List Event) : SoundState :=
  { queues := fun v => if v = 0 then q0 else if v = 1 then q1 else
      if v = 2 then q2 else if v = 3 then q3 else [],
    noiseFreq := initNoiseFreq,
    capabilities := Caps.plain, sound_on := false, foreground := true }

/-! ### Claims C4 and C3 -/

/-- Helper: enqueueing a list of events one by one onto a voice. -/
def putAll (st : SoundState) (voice : Nat) : List Event → SoundState
  | [] => st
  | e :: es => putAll (tone_queue_put st voice e) voice es

theorem putAll_queue (st : SoundState) (voice : Nat) (es : List Event) :
    (putAll st voice es).queues voice = st.queues voice ++ es := by
  induction es generalizing st with
  | nil => simp [putAll]
  | cons e es ih =>
      rw [putAll, ih]
      simp [tone_queue_put]

/-- C4 — For every voice, the adjusted queue length equals
`max(0, raw_count - 1)`; enqueueing `N` events onto an initially empty voice
queue yields adjusted length `N - 1` for `N ≥ 1` and `0` for `N = 0`. -/
theorem C4_queue_length_adjusted (st : SoundState) (voice : Nat)
    (es : List Event) (hempty : st.queues voice = []) :
    queue_length st voice = max 0 (qsize st voice - 1) ∧
    ((es.length = 0 → queue_length (putAll st voice es) voice = 0) ∧
     (1 ≤ es.length →
        queue_length (putAll st voice es) voice = (es.length : Int) - 1)) := by
  refine ⟨rfl, ?_, ?_⟩
  · intro h
    simp [queue_length, qsize, putAll_queue, hempty, h, List.length_eq_zero.1 h]
  · intro h
    have hq : (putAll st voice es).queues voice = es := by
      rw [putAll_queue, hempty]; simp
    simp only [queue_length, qsize, hq]
    omega

theorem C4_queue_length_adjusted_witness :
    (mkSound [] [] [] []).queues 0 = [] ∧
    queue_length (putAll (mkSound [] [] [] []) 0
      [dummyEvent, dummyEvent, dummyEvent]) 0 = 2 := by
  refine ⟨rfl, ?_⟩
  have h := (C4_queue_length_adjusted (mkSound [] [] [] []) 0
    [dummyEvent, dummyEvent, dummyEvent] rfl).2.2 (by decide)
  simpa using h

/-- Queues of the state produced by `play_sound_no_wait`: exactly one event is
appended to the named voice's queue, all other queues are untouched. -/
theorem play_sound_no_wait_queues (st : SoundState) (frequency : Freq)
    (duration fill : ℚ) (loopFlag : Bool) (voice : Nat) (volume : Int) (w : Nat) :
    (play_sound_no_wait st frequency duration fill loopFlag voice volume).queues w =
      if w = voice then st.queues voice ++
        [{ frequency := clamp110 st.capabilities st.sound_on frequency,
           duration := duration, fill := fill, loopFlag := loopFlag,
           volume := volume }]
      else st.queues w := by
  have hq : ∀ (s : SoundState) (f : Freq) (v : Nat),
      (noise_link_update s f v).queues = s.queues := by
    intro s f v
    unfold noise_link_update
    split <;> rfl
  rw [play_sound_no_wait, hq]
  unfold tone_queue_put
  by_cases hw : w = voice <;> simp [hw]

/-- Following the words of the claim for `play_sound` (not the source): the
blocking condition claimed is on the named voice's queue only. -/
def claimed_play_wait_blocks (st : SoundState) (voice : Nat) : Bool :=
  queue_length st voice > 15

/-- C3 counterexample — a state in which the named voice's adjusted queue
length is at most 15 after the enqueue (the claim says the call returns), yet
`play_sound` still blocks, because `wait_music` tests all three tone voices:
here voice 1 holds 17 queued events while the call names voice 0. -/
theorem C3_counterexample :
    play_sound_blocks (mkSound [] (List.replicate 17 dummyEvent) [] [])
      (Freq.hz 440) 1 1 false 0 15 = true ∧
    claimed_play_wait_blocks
      (play_sound (mkSound [] (List.replicate 17 dummyEvent) [] [])
        (Freq.hz 440) 1 1 false 0 15) 0 = false := by
  constructor <;> decide

/-- C3 amended — `play_sound` first enqueues the event on the given voice's
queue (leaving the other queues unchanged) and then blocks until the adjusted
queue length (reported depth minus one, clamped at zero) of every one of the
three tone voices 0, 1, 2 is at most 15; its blocking condition is on all
three tone-voice queues, not only on the named voice's queue. -/
theorem C3_enqueue_then_wait_all_voices (st : SoundState) (frequency : Freq)
    (duration fill : ℚ) (loopFlag : Bool) (voice : Nat) (volume : Int) :
    ((play_sound st frequency duration fill loopFlag voice volume).queues voice =
        st.queues voice ++
          [{ frequency := clamp110 st.capabilities st.sound_on frequency,
             duration := duration, fill := fill, loopFlag := loopFlag,
             volume := volume }] ∧
      ∀ w, w ≠ voice →
        (play_sound st frequency duration fill loopFlag voice volume).queues w =
          st.queues w) ∧
    (play_sound_blocks st frequency duration fill loopFlag voice volume = false ↔
      (queue_length (play_sound st frequency duration fill loopFlag voice volume) 0 ≤ 15 ∧
       queue_length (play_sound st frequency duration fill loopFlag voice volume) 1 ≤ 15 ∧
       queue_length (play_sound st frequency duration fill loopFlag voice volume) 2 ≤ 15)) := by
  refine ⟨⟨?_, ?_⟩, ?_⟩
  · rw [play_sound, play_sound_no_wait_queues]; simp
  · intro w hw
    rw [play_sound, play_sound_no_wait_queues]
    simp [hw]
  · simp [play_sound_blocks, play_sound, wait_music_waits,
      Bool.or_eq_false_iff, decide_eq_false_iff_not, not_lt, and_assoc]

/-! ### The Music Macro Language interpreter (`Sound.play`, sound.py lines 152 to 283)

The scanner helpers `util.skip_read` and `util.skip` and the number and
string argument parsers of `draw_and_play.MLParser` live in modules that are
not part of this repository subset; they are modelled from the spec, as
marked below.  All command dispatch, state updates and event generation
follow sound.py. -/

/-- Errors of the embedded interpreter: `error.RunError(error.IFC)` (an
illegal function call), a Python `ZeroDivisionError` escaping from `1./0.`
(sound.py lines 204, 206 and 235), and exhaustion of a recursion-depth fuel
(never reached with the fuel the drivers allot). -/
inductive Err where
  | ifc
  | zeroDiv
  | noFuel
deriving DecidableEq

/-- `PlayState` (sound.py lines 32 to 41). -/
structure PlayState where
  octave : Int
  speed : ℚ
  tempo : ℚ
  length : ℚ
  volume : Int
deriving DecidableEq

/-- The initial per-voice play state (sound.py lines 35 to 41). -/
def PlayState.init : PlayState :=
  { octave := 4, speed := mkRat 7 8, tempo := 2, length := mkRat 1 4, volume := 15 }

/-- Modelled from the spec: the whitespace characters skipped by the MML
scanner (`MLParser.whitepace`, draw_and_play.py, not in this subset). -/
def mmlWs : List Char := [' ', '\t', '\n']

def isWs (c : Char) : Bool := mmlWs.contains c

/-- Modelled from the spec: `util.skip_read(gmls, whitepace)` (util.py, not
in this subset): skip whitespace, then read one character (`none` at end of
input). -/
def skip_read (l : List Char) : Option Char × List Char :=
  match l.dropWhile isWs with
  | [] => (none, [])
  | c :: r => (some c, r)

/-- Modelled from the spec: `util.skip(gmls, whitepace)`: consume whitespace,
peeking (not consuming) the following character. -/
def mmlSkip (l : List Char) : List Char := l.dropWhile isWs

def digitVal (c : Char) : Nat := c.toNat - 48

def digitsToNat (ds : List Char) : Nat :=
  ds.foldl (fun a c => a * 10 + digitVal c) 0

/-- Modelled from the spec: `MLParser.ml_parse_number` and
`MLParser.parse_number` (draw_and_play.py, not in this subset): skip
whitespace and read a digit literal; a missing number is an illegal function
call. -/
def parse_number (l : List Char) : Except Err (Nat × List Char) :=
  let t := mmlSkip l
  let ds := t.takeWhile Char.isDigit
  if ds.isEmpty then .error .ifc
  else .ok (digitsToNat ds, t.dropWhile Char.isDigit)

/-- Modelled from the spec: `MLParser.parse_string` (draw_and_play.py, not in
this subset): skip whitespace and read a double-quote delimited string
literal; anything else is an illegal function call. -/
def parse_string (l : List Char) : Except Err (List Char × List Char) :=
  match mmlSkip l with
  | '"' :: t =>
      let sub := t.takeWhile (fun c => c ≠ '"')
      match t.dropWhile (fun c => c ≠ '"') with
      | '"' :: rest => .ok (sub, rest)
      | _ => .error .ifc
  | _ => .error .ifc

/-- The `notes` dictionary (sound.py lines 28 and 29). -/
def notesLookup : List Char → Option Nat
  | ['C'] => some 0
  | ['C', '#'] => some 1
  | ['D', '-'] => some 1
  | ['D'] => some 2
  | ['D', '#'] => some 3
  | ['E', '-'] => some 3
  | ['E'] => some 4
  | ['F'] => some 5
  | ['F', '#'] => some 6
  | ['G', '-'] => some 6
  | ['G'] => some 7
  | ['G', '#'] => some 8
  | ['A', '-'] => some 8
  | ['A'] => some 9
  | ['A', '#'] => some 10
  | ['B', '-'] => some 10
  | ['B'] => some 11
  | _ => none

/-- The digit sub-loop of the note-modifier loop (sound.py lines 228 to 232):
consume digits, allowing whitespace between them, and return the collected
numeral and the remaining stream (whitespace before the next character
consumed).  The fuel only bounds recursion depth; the caller allots enough. -/
def note_digits (fuel : Nat) (acc : List Char) (l : List Char) :
    List Char × List Char :=
  match fuel with
  | 0 => (acc, l)
  | fuel + 1 =>
    match l with
    | c :: r =>
        if c.isDigit then note_digits fuel (acc ++ [c]) (mmlSkip r)
        else (acc, l)
    | [] => (acc, l)

/-- The note-modifier loop of the letter branch (sound.py lines 220 to 243):
starting from the note letter, consume dots (duration times 3/2), an explicit
length numeral (duration reset to its reciprocal; a zero numeral raises
Python's `ZeroDivisionError`), and accidentals, until another character or the
end of input is found. -/
def note_mods (fuel : Nat) (note : List Char) (dur : ℚ) (l : List Char) :
    Except Err (List Char × ℚ × List Char) :=
  match fuel with
  | 0 => .error .noFuel
  | fuel + 1 =>
    match mmlSkip l with
    | [] => .ok (note, dur, [])
    | c :: r =>
        if c.toUpper = '.' then note_mods fuel note (qMul dur (mkRat 3 2)) r
        else if c.toUpper.isDigit then
          let p := note_digits (r.length + 1) [c.toUpper] (mmlSkip r)
          if digitsToNat p.1 = 0 then .error .zeroDiv
          else note_mods fuel note (mkRat 1 (digitsToNat p.1)) p.2
        else if c.toUpper = '#' ∨ c.toUpper = '+' then
          note_mods fuel (note ++ ['#']) dur r
        else if c.toUpper = '-' then note_mods fuel (note ++ ['-']) dur r
        else .ok (note, dur, c :: r)

/-- The full interpreter state of one `Sound.play` call: the three voice
streams (as the unread remainder of each `StringIO`), the persistent
per-voice play state, the mutable `voices` list, the shared `next_oct`
variable, the accumulated `total_time` list and the sound-engine state. -/
structure MLState where
  streams : Nat → List Char
  playState : Nat → PlayState
  voices : List Nat
  nextOct : Int
  totalTime : Nat → ℚ
  sound : SoundState

def setStream (st : MLState) (v : Nat) (l : List Char) : MLState :=
  { st with streams := fun w => if w = v then l else st.streams w }

def setPS (st : MLState) (v : Nat) (p : PlayState) : MLState :=
  { st with playState := fun w => if w = v then p else st.playState w }

def addTime (st : MLState) (v : Nat) (t : ℚ) : MLState :=
  { st with totalTime := fun w => if w = v then qAdd (st.totalTime v) t else st.totalTime w }

def setSound (st : MLState) (s : SoundState) : MLState := { st with sound := s }

/-- Result of processing one lexical unit of one voice. -/
inductive StepRes where
  | exhausted (st : MLState)
  | ok (st : MLState)
  | err (e : Err)

/-- One iteration of the body of the `for voice in voices` loop of
`Sound.play` (sound.py lines 168 to 277) for voice `v`: read one command
with its contiguous modifiers from the voice's stream and perform it.
`exhausted` corresponds to `skip_read` returning `''` (line 173); the caller
removes the voice from the active list in that case. -/
def cmdX (st : MLState) (v : Nat) (r : List Char) : StepRes :=
  match parse_string r with
  | .error e => .err e
  | .ok (sub, rest) => .ok (setStream st v (sub ++ rest))

def cmdN (st : MLState) (v : Nat) (r : List Char) : StepRes :=
  match parse_number r with
  | .error e => .err e
  | .ok (note, r1) =>
    let t := mmlSkip r1
    let dotted := t.head? = some '.'
    let dur := if dotted then qMul (st.playState v).length (mkRat 3 2)
      else (st.playState v).length
    let r2 := if dotted then t.tail else t
    if 0 < note ∧ note ≤ 84 then
      let st1 := setSound (setStream st v r2)
        (play_sound st.sound (Freq.note ((note : Int) - 1))
          (qMul dur (st.playState v).tempo)
          (st.playState v).speed false v (st.playState v).volume)
      .ok (addTime st1 v (qMul dur (st.playState v).tempo))
    else if note = 0 then
      let st1 := setSound (setStream st v r2)
        (play_sound st.sound (Freq.hz 0) (qMul dur (st.playState v).tempo)
          (st.playState v).speed false v 0)
      .ok (addTime st1 v (qMul dur (st.playState v).tempo))
    else .ok (setStream st v r2)

def cmdL (st : MLState) (v : Nat) (r : List Char) : StepRes :=
  match parse_number r with
  | .error e => .err e
  | .ok (n, r1) =>
      if n = 0 then .err .zeroDiv
      else .ok (setPS (setStream st v r1) v
        { st.playState v with length := mkRat 1 n })

def cmdT (st : MLState) (v : Nat) (r : List Char) : StepRes :=
  match parse_number r with
  | .error e => .err e
  | .ok (n, r1) =>
      if n = 0 then .err .zeroDiv
      else .ok (setPS (setStream st v r1) v
        { st.playState v with tempo := mkRat 240 n })

def cmdO (st : MLState) (v : Nat) (r : List Char) : StepRes :=
  match parse_number r with
  | .error e => .err e
  | .ok (n, r1) =>
      .ok (setPS (setStream st v r1) v
        { st.playState v with octave := min 6 (max 0 (n : Int)) })

def cmdOctaveUp (st : MLState) (v : Nat) (r : List Char) : StepRes :=
  let o := (st.playState v).octave + 1
  .ok (setPS (setStream st v r) v
    { st.playState v with octave := if o > 6 then 6 else o })

def cmdOctaveDown (st : MLState) (v : Nat) (r : List Char) : StepRes :=
  let o := (st.playState v).octave - 1
  .ok (setPS (setStream st v r) v
    { st.playState v with octave := if o < 0 then 0 else o })

def cmdNote (st : MLState) (v : Nat) (c : Char) (r : List Char) : StepRes :=
  match note_mods (r.length + 1) [c] (st.playState v).length r with
  | .error e => .err e
  | .ok (note, dur, rest) =>
    if note = ['P'] then
      let st1 := setSound (setStream st v rest)
        (play_sound st.sound (Freq.hz 0) (qMul dur (st.playState v).tempo)
          (st.playState v).speed false v (st.playState v).volume)
      .ok { addTime st1 v (qMul dur (st.playState v).tempo) with nextOct := 0 }
    else
      match notesLookup note with
      | none => .err .ifc
      | some n =>
        let st1 := setSound (setStream st v rest)
          (play_sound st.sound
            (Freq.note (((st.playState v).octave + st.nextOct) * 12 + (n : Int)))
            (qMul dur (st.playState v).tempo)
            (st.playState v).speed false v (st.playState v).volume)
        .ok { addTime st1 v (qMul dur (st.playState v).tempo) with nextOct := 0 }

def cmdM (st : MLState) (v : Nat) (r : List Char) : StepRes :=
  match skip_read r with
  | (none, _) => .err .ifc
  | (some m0, r1) =>
    let m := m0.toUpper
    if m = 'N' then .ok (setPS (setStream st v r1) v
      { st.playState v with speed := mkRat 7 8 })
    else if m = 'L' then .ok (setPS (setStream st v r1) v
      { st.playState v with speed := 1 })
    else if m = 'S' then .ok (setPS (setStream st v r1) v
      { st.playState v with speed := mkRat 3 4 })
    else if m = 'F' then
      .ok (setSound (setStream st v r1) { st.sound with foreground := true })
    else if m = 'B' then
      .ok (setSound (setStream st v r1) { st.sound with foreground := false })
    else .err .ifc

def cmdV (st : MLState) (v : Nat) (r : List Char) : StepRes :=
  match parse_number r with
  | .error e => .err e
  | .ok (n, r1) =>
      .ok (setPS (setStream st v r1) v
        { st.playState v with volume := min 15 (max 0 (n : Int)) })

/-- The `elif` chain of `Sound.play` (sound.py lines 176 to 277), dispatching
on the uppercased command character; each arm is one of the command functions
above, in the source's branch order. -/
def voiceCommand (st : MLState) (v : Nat) (c : Char) (r : List Char) :
    StepRes :=
  if c = ';' then .ok (setStream st v r)
  else if c = 'X' then cmdX st v r
  else if c = 'N' then cmdN st v r
  else if c = 'L' then cmdL st v r
  else if c = 'T' then cmdT st v r
  else if c = 'O' then cmdO st v r
  else if c = '>' then cmdOctaveUp st v r
  else if c = '<' then cmdOctaveDown st v r
  else if c = 'A' ∨ c = 'B' ∨ c = 'C' ∨ c = 'D' ∨ c = 'E' ∨ c = 'F' ∨
      c = 'G' ∨ c = 'P' then cmdNote st v c r
  else if c = 'M' then cmdM st v r
  else if c = 'V' ∧
      lowClampOn st.sound.capabilities st.sound.sound_on = true then cmdV st v r
  else .err .ifc

/-- Reading one command from voice `v`: read one character past the
whitespace; end of input is `exhausted` (the caller removes the voice);
otherwise the uppercased character is dispatched to `voiceCommand`. -/
def voiceStep (st : MLState) (v : Nat) : StepRes :=
  match skip_read (st.streams v) with
  | (none, r) => .exhausted (setStream st v r)
  | (some c0, r) => voiceCommand st v c0.toUpper r

/-- The `for voice in voices` loop of `Sound.play` (sound.py lines 168 to
277) from iterator position `i`.  Python's list iterator yields the element
at position `i` of the current, possibly already mutated, list; removing the
current element in the body (`voices.remove(voice)`, line 174) shifts the
following elements one position left, so the next iteration, at position
`i + 1`, skips the voice that moved into position `i`.  The fuel only bounds
recursion depth; `voices.length + 1` at entry is always enough. -/
def playPassIdx (fuel : Nat) (st : MLState) (i : Nat) : Except Err MLState :=
  match fuel with
  | 0 => .error .noFuel
  | fuel + 1 =>
    if h : i < st.voices.length then
      match voiceStep st (st.voices.get ⟨i, h⟩) with
      | .exhausted st1 =>
          playPassIdx fuel
            { st1 with voices := st1.voices.erase (st.voices.get ⟨i, h⟩) } (i + 1)
      | .ok st1 => playPassIdx fuel st1 (i + 1)
      | .err e => .error e
    else .ok st

/-- The `while True` loop of `Sound.play` (sound.py lines 165 to 277): break
when the active list is empty, otherwise run one full pass of the `for`
loop.  The fuel bounds the number of passes; every pass on a nonempty active
list either consumes source characters or retires a voice, so the fuel the
driver allots (total source length plus four) is always enough. -/
def playLoopF (fuel : Nat) (st : MLState) : Except Err MLState :=
  match fuel with
  | 0 => .error .noFuel
  | fuel + 1 =>
    if st.voices = [] then .ok st
    else
      match playPassIdx (st.voices.length + 1) st 0 with
      | .error e => .error e
      | .ok st1 => playLoopF fuel st1

def max4 (a b c d : ℚ) : ℚ := qMax (qMax (qMax a b) c) d

/-- The padding step after the main loop (sound.py lines 278 to 281): a voice
whose accumulated time is below the maximum receives one silent event for the
difference. -/
def padVoice (maxT : ℚ) (s : MLState) (v : Nat) : MLState :=
  if qLt (s.totalTime v) maxT then
    setSound s (play_sound s.sound (Freq.hz 0) (qSub maxT (s.totalTime v)) 1 false v 15)
  else s

/-- `Sound.play` (sound.py lines 152 to 283) for a three-string MML list (the
statement layer passes one string per voice): run the interleaved scanning
loop, then pad every tone voice whose accumulated time is below the maximum
of the four `total_time` entries with a silent event.  The final foreground
wait (lines 282 and 283) suspends without changing the state modelled here. -/
def play (sound0 : SoundState) (ps : Nat → PlayState) (s0 s1 s2 : List Char) :
    Except Err MLState :=
  let st0 : MLState :=
    { streams := fun v => if v = 0 then s0 else if v = 1 then s1 else
        if v = 2 then s2 else [],
      playState := ps, voices := [0, 1, 2], nextOct := 0,
      totalTime := fun _ => 0, sound := sound0 }
  match playLoopF (s0.length + s1.length + s2.length + 4) st0 with
  | .error e => .error e
  | .ok st1 =>
      let maxT := max4 (st1.totalTime 0) (st1.totalTime 1) (st1.totalTime 2)
        (st1.totalTime 3)
      .ok (padVoice maxT (padVoice maxT (padVoice maxT st1 0) 1) 2)

/-! ### Claims C1, C2 and C10 -/

/-- A concrete interpreter state with voice 0 holding stream `s0` and
everything else at its `Sound.play` entry value. -/
def mkML (s0 : List Char) : MLState :=
  { streams := fun v => if v = 0 then s0 else [],
    playState := fun _ => PlayState.init, voices := [0, 1, 2], nextOct := 0,
    totalTime := fun _ => 0, sound := mkSound [] [] [] [] }

theorem voiceStep_eq_command (st : MLState) (v : Nat) (c : Char)
    (rest : List Char) (h : mmlSkip (st.streams v) = c :: rest) :
    voiceStep st v = voiceCommand st v c.toUpper rest := by
  unfold voiceStep skip_read
  rw [show (st.streams v).dropWhile isWs = c :: rest from h]

/-- The characters that the note-modifier loop consumes. -/
def isNoteMod (d : Char) : Bool :=
  d.toUpper = '.' || d.toUpper.isDigit || d.toUpper = '#' ||
    d.toUpper = '+' || d.toUpper = '-'

/-- When the character after the note letter is not a modifier (or the input
ends), the modifier loop returns at once. -/
theorem note_mods_nomod (note : List Char) (dur : ℚ) (l : List Char)
    (h : (mmlSkip l).head?.all (fun d => !(isNoteMod d)) = true) :
    note_mods (l.length + 1) note dur l = .ok (note, dur, mmlSkip l) := by
  rcases hm : mmlSkip l with _ | ⟨d, r⟩
  · unfold note_mods
    rw [hm]
  · rw [hm] at h
    simp only [Option.all_some, List.head?_cons, Bool.not_eq_true'] at h
    simp only [isNoteMod, Bool.or_eq_false_iff, decide_eq_false_iff_not] at h
    unfold note_mods
    simp only [hm]
    rw [if_neg h.1.1.1.1, if_neg (by simp [h.1.1.1.2]),
      if_neg (by rintro (h1 | h1) <;> simp [h1] at h), if_neg h.2]

/-- C1 counterexample — running `play` on `">>C"` from the default state
(octave 4): the note sounds at octave 6 (table index 72 = 6 * 12), as the
claim says, but afterwards the voice's persistent octave is 6, not the
claimed restored value 4: `>` and `<` modify the persistent octave itself
(sound.py lines 209 to 216) and nothing resets it after the note. -/
theorem C1_counterexample :
    (play (mkSound [] [] [] []) (fun _ => PlayState.init)
        ">>C".toList [] []).toOption.map
      (fun st => ((st.playState 0).octave, st.sound.queues 0)) =
      some (6, [{ frequency := Freq.note 72, duration := mkRat 1 2,
                  fill := mkRat 7 8, loopFlag := false, volume := 15 }]) ∧
    ¬ ((play (mkSound [] [] [] []) (fun _ => PlayState.init)
        ">>C".toList [] []).toOption.map
      (fun st => (st.playState 0).octave) = some 4) := by
  constructor <;> decide

/-- C1 amended — `>` and `<` raise and lower the voice's persistent octave
itself, clamped to [0, 6]; the modification is not restricted to the next
note and is never reset: a note letter leaves the octave unchanged, and the
note sounded uses the persistent octave directly (table index
`octave * 12 + notes[name]`; the interpreter's `next_oct` is always 0). -/
theorem C1_octave_shift_persists (st : MLState) (v : Nat) (c : Char)
    (rest : List Char) (n : Nat) :
    (mmlSkip (st.streams v) = '>' :: rest →
      voiceStep st v = .ok (setPS (setStream st v rest) v
        { st.playState v with
            octave := min 6 ((st.playState v).octave + 1) })) ∧
    (mmlSkip (st.streams v) = '<' :: rest →
      voiceStep st v = .ok (setPS (setStream st v rest) v
        { st.playState v with
            octave := max 0 ((st.playState v).octave - 1) })) ∧
    (mmlSkip (st.streams v) = c :: rest →
      (c.toUpper = 'A' ∨ c.toUpper = 'B' ∨ c.toUpper = 'C' ∨ c.toUpper = 'D' ∨
       c.toUpper = 'E' ∨ c.toUpper = 'F' ∨ c.toUpper = 'G' ∨ c.toUpper = 'P') →
      ∀ st1, voiceStep st v = .ok st1 →
        (st1.playState v).octave = (st.playState v).octave) ∧
    (mmlSkip (st.streams v) = c :: rest →
      (c.toUpper = 'A' ∨ c.toUpper = 'B' ∨ c.toUpper = 'C' ∨ c.toUpper = 'D' ∨
       c.toUpper = 'E' ∨ c.toUpper = 'F' ∨ c.toUpper = 'G') →
      st.nextOct = 0 →
      notesLookup [c.toUpper] = some n →
      (mmlSkip rest).head?.all (fun d => !(isNoteMod d)) = true →
      ∃ st1, voiceStep st v = .ok st1 ∧
        (st1.playState v).octave = (st.playState v).octave ∧
        st1.sound.queues v = st.sound.queues v ++
          [{ frequency := clamp110 st.sound.capabilities st.sound.sound_on
               (Freq.note ((st.playState v).octave * 12 + (n : Int))),
             duration := qMul (st.playState v).length (st.playState v).tempo,
             fill := (st.playState v).speed, loopFlag := false,
             volume := (st.playState v).volume }]) := by
  refine ⟨?_, ?_, ?_, ?_⟩
  · intro h
    rw [voiceStep_eq_command st v _ rest h]
    show voiceCommand st v '>' rest = _
    unfold voiceCommand
    simp only [Char.reduceEq, reduceIte]
    unfold cmdOctaveUp
    have he : (if (st.playState v).octave + 1 > 6 then (6 : Int)
        else (st.playState v).octave + 1) = min 6 ((st.playState v).octave + 1) := by
      split <;> omega
    simp only [he]
  · intro h
    rw [voiceStep_eq_command st v _ rest h]
    show voiceCommand st v '<' rest = _
    unfold voiceCommand
    simp only [Char.reduceEq, reduceIte]
    unfold cmdOctaveDown
    have he : (if (st.playState v).octave - 1 < 0 then (0 : Int)
        else (st.playState v).octave - 1) = max 0 ((st.playState v).octave - 1) := by
      split <;> omega
    simp only [he]
  · intro h hl st1 hok
    rw [voiceStep_eq_command st v _ rest h] at hok
    rcases hl with hc | hc | hc | hc | hc | hc | hc | hc <;> rw [hc] at hok
    all_goals
      unfold voiceCommand at hok
      simp only [Char.reduceEq, reduceIte, or_self, or_true, true_or, or_false,
        false_or] at hok
      unfold cmdNote at hok
      split at hok
      · exact StepRes.noConfusion hok
      · split at hok
        · cases hok
          simp [addTime, setSound, setStream]
        · split at hok
          · exact StepRes.noConfusion hok
          · cases hok
            simp [addTime, setSound, setStream]
  · intro h hl h0 hn hrest
    rw [voiceStep_eq_command st v _ rest h]
    rcases hl with hc | hc | hc | hc | hc | hc | hc <;> rw [hc] at hn ⊢
    all_goals
      unfold voiceCommand
      simp only [Char.reduceEq, reduceIte, or_self, or_true, true_or, or_false,
        false_or]
      unfold cmdNote
      simp only [note_mods_nomod _ _ _ hrest]
      simp only [List.cons.injEq, Char.reduceEq, and_true, and_false, reduceIte]
      simp only [hn]
      refine ⟨_, rfl, ?_, ?_⟩
      · simp [addTime, setSound, setStream]
      · simp only [addTime, setSound, setStream, play_sound]
        rw [play_sound_no_wait_queues]
        simp [h0]

theorem C1_octave_shift_persists_witness :
    (voiceStep (mkML ['>']) 0 = .ok (setPS (setStream (mkML ['>']) 0 []) 0
      { (mkML ['>']).playState 0 with
          octave := min 6 (((mkML ['>']).playState 0).octave + 1) })) ∧
    (∃ st1, voiceStep (mkML ['C']) 0 = .ok st1 ∧
      (st1.playState 0).octave = ((mkML ['C']).playState 0).octave ∧
      st1.sound.queues 0 = (mkML ['C']).sound.queues 0 ++
        [{ frequency := clamp110 (mkML ['C']).sound.capabilities
             (mkML ['C']).sound.sound_on
             (Freq.note (((mkML ['C']).playState 0).octave * 12 + (0 : Int))),
           duration := qMul ((mkML ['C']).playState 0).length
             ((mkML ['C']).playState 0).tempo,
           fill := ((mkML ['C']).playState 0).speed, loopFlag := false,
           volume := ((mkML ['C']).playState 0).volume }]) :=
  ⟨(C1_octave_shift_persists (mkML ['>']) 0 'C' [] 0).1 (by decide),
   (C1_octave_shift_persists (mkML ['C']) 0 'C' [] 0).2.2.2 (by decide)
     (by decide) rfl (by decide) (by decide)⟩

/-- C10 — an `N` command whose parsed note number is strictly greater than 84
raises no error, enqueues no tone event, adds nothing to the voice's
accumulated total duration and changes no play state: the result only
advances the voice's stream (a trailing dot is still consumed, sound.py
lines 190 to 193), so scanning continues with the voice's next command
(sound.py lines 187 to 202: neither the `note <= 84` branch nor the
`note == 0` branch applies, and no other action is taken). -/
theorem C10_note_above_84_ignored (st : MLState) (v : Nat) (c : Char)
    (rest r1 : List Char) (k : Nat)
    (h : mmlSkip (st.streams v) = c :: rest)
    (hcU : c.toUpper = 'N')
    (hp : parse_number rest = .ok (k, r1))
    (hk : 84 < k) :
    voiceStep st v = .ok (setStream st v
      (if (mmlSkip r1).head? = some '.' then (mmlSkip r1).tail
       else mmlSkip r1)) := by
  rw [voiceStep_eq_command st v _ rest h, hcU]
  unfold voiceCommand
  simp only [Char.reduceEq, reduceIte]
  unfold cmdN
  simp only [hp]
  rw [if_neg (by omega), if_neg (by omega)]

theorem C10_note_above_84_ignored_witness :
    voiceStep (mkML "N85C".toList) 0 = .ok (setStream (mkML "N85C".toList) 0
      (if (mmlSkip ['C']).head? = some '.' then (mmlSkip ['C']).tail
       else mmlSkip ['C'])) :=
  C10_note_above_84_ignored (mkML "N85C".toList) 0 'N' "85C".toList ['C'] 85
    (by decide) (by decide) rfl (by decide)

/-- A concrete interpreter state with the three voice streams given. -/
def mkML3 (s0 s1 s2 : List Char) : MLState :=
  { streams := fun v => if v = 0 then s0 else if v = 1 then s1 else
      if v = 2 then s2 else [],
    playState := fun _ => PlayState.init, voices := [0, 1, 2], nextOct := 0,
    totalTime := fun _ => 0, sound := mkSound [] [] [] [] }

/-- C2 counterexample — one full pass of the `for` loop on the sources
`"", "A", "B"`: voice 0 is exhausted and removed, which makes the iterator
skip voice 1 (Python mutates the list it iterates).  The pass ends with
voice 1 still in the active set, its stream `"A"` unread and its queue empty,
while voice 2 did consume its unit; so this pass did not consume one lexical
unit from every voice still in the active set. -/
theorem C2_counterexample :
    (playPassIdx 4 (mkML3 [] ['A'] ['B']) 0).toOption.map
        (fun st => (st.voices, st.streams 1, (st.sound.queues 1).length,
          (st.sound.queues 2).length)) =
      some ([1, 2], ['A'], 0, 1) := by decide

/-- Reference pass behaviour stated by the claim: consume exactly one lexical
unit from every listed voice, in order (exhaustion leaves the state alone;
an error aborts). -/
def stepEach (st : MLState) : List Nat → Except Err MLState
  | [] => .ok st
  | v :: vs =>
    match voiceStep st v with
    | .ok st1 => stepEach st1 vs
    | .exhausted _ => stepEach st vs
    | .err e => .error e

/-- Frame property of one command step: an `ok` outcome preserves the active
list and the other voices' streams, and no command outcome is `exhausted`. -/
def okFrame (st : MLState) (v : Nat) (res : StepRes) : Prop :=
  (∀ st1, res = .ok st1 →
    st1.voices = st.voices ∧ ∀ w, w ≠ v → st1.streams w = st.streams w) ∧
  (∀ st1, res ≠ .exhausted st1)

theorem okFrame_ok (st : MLState) (v : Nat) (st2 : MLState)
    (hv : st2.voices = st.voices)
    (hs : ∀ w, w ≠ v → st2.streams w = st.streams w) :
    okFrame st v (.ok st2) :=
  ⟨fun st1 h => by cases h; exact ⟨hv, hs⟩, fun _ h => StepRes.noConfusion h⟩

theorem okFrame_err (st : MLState) (v : Nat) (e : Err) :
    okFrame st v (.err e) :=
  ⟨fun _ h => StepRes.noConfusion h, fun _ h => StepRes.noConfusion h⟩

theorem cmdX_frame (st : MLState) (v : Nat) (r : List Char) :
    okFrame st v (cmdX st v r) := by
  unfold cmdX
  repeat' split
  all_goals first
    | exact okFrame_err _ _ _
    | exact okFrame_ok _ _ _ (by simp [setStream, setPS, addTime, setSound])
        (fun w hw => by simp [setStream, setPS, addTime, setSound, hw])

theorem cmdN_frame (st : MLState) (v : Nat) (r : List Char) :
    okFrame st v (cmdN st v r) := by
  unfold cmdN
  repeat' (first | split | dsimp only)
  all_goals first
    | exact okFrame_err _ _ _
    | exact okFrame_ok _ _ _ (by simp [setStream, setPS, addTime, setSound])
        (fun w hw => by simp [setStream, setPS, addTime, setSound, hw])

theorem cmdL_frame (st : MLState) (v : Nat) (r : List Char) :
    okFrame st v (cmdL st v r) := by
  unfold cmdL
  repeat' split
  all_goals first
    | exact okFrame_err _ _ _
    | exact okFrame_ok _ _ _ (by simp [setStream, setPS, addTime, setSound])
        (fun w hw => by simp [setStream, setPS, addTime, setSound, hw])

theorem cmdT_frame (st : MLState) (v : Nat) (r : List Char) :
    okFrame st v (cmdT st v r) := by
  unfold cmdT
  repeat' split
  all_goals first
    | exact okFrame_err _ _ _
    | exact okFrame_ok _ _ _ (by simp [setStream, setPS, addTime, setSound])
        (fun w hw => by simp [setStream, setPS, addTime, setSound, hw])

theorem cmdO_frame (st : MLState) (v : Nat) (r : List Char) :
    okFrame st v (cmdO st v r) := by
  unfold cmdO
  repeat' split
  all_goals first
    | exact okFrame_err _ _ _
    | exact okFrame_ok _ _ _ (by simp [setStream, setPS, addTime, setSound])
        (fun w hw => by simp [setStream, setPS, addTime, setSound, hw])

theorem cmdOctaveUp_frame (st : MLState) (v : Nat) (r : List Char) :
    okFrame st v (cmdOctaveUp st v r) := by
  unfold cmdOctaveUp
  exact okFrame_ok _ _ _ (by simp [setStream, setPS])
    (fun w hw => by simp [setStream, setPS, hw])

theorem cmdOctaveDown_frame (st : MLState) (v : Nat) (r : List Char) :
    okFrame st v (cmdOctaveDown st v r) := by
  unfold cmdOctaveDown
  exact okFrame_ok _ _ _ (by simp [setStream, setPS])
    (fun w hw => by simp [setStream, setPS, hw])

theorem cmdNote_frame (st : MLState) (v : Nat) (c : Char) (r : List Char) :
    okFrame st v (cmdNote st v c r) := by
  unfold cmdNote
  repeat' split
  all_goals first
    | exact okFrame_err _ _ _
    | exact okFrame_ok _ _ _ (by simp [setStream, setPS, addTime, setSound])
        (fun w hw => by simp [setStream, setPS, addTime, setSound, hw])

theorem cmdM_frame (st : MLState) (v : Nat) (r : List Char) :
    okFrame st v (cmdM st v r) := by
  unfold cmdM
  repeat' (first | split | dsimp only)
  all_goals first
    | exact okFrame_err _ _ _
    | exact okFrame_ok _ _ _ (by simp [setStream, setPS, addTime, setSound])
        (fun w hw => by simp [setStream, setPS, addTime, setSound, hw])

theorem cmdV_frame (st : MLState) (v : Nat) (r : List Char) :
    okFrame st v (cmdV st v r) := by
  unfold cmdV
  repeat' split
  all_goals first
    | exact okFrame_err _ _ _
    | exact okFrame_ok _ _ _ (by simp [setStream, setPS, addTime, setSound])
        (fun w hw => by simp [setStream, setPS, addTime, setSound, hw])

set_option maxHeartbeats 1000000 in
theorem voiceCommand_frame (st : MLState) (v : Nat) (c : Char)
    (r : List Char) : okFrame st v (voiceCommand st v c r) := by
  unfold voiceCommand
  repeat' split
  · exact okFrame_ok _ _ _ (by simp [setStream])
      (fun w hw => by simp [setStream, hw])
  · exact cmdX_frame _ _ _
  · exact cmdN_frame _ _ _
  · exact cmdL_frame _ _ _
  · exact cmdT_frame _ _ _
  · exact cmdO_frame _ _ _
  · exact cmdOctaveUp_frame _ _ _
  · exact cmdOctaveDown_frame _ _ _
  · exact cmdNote_frame _ _ _ _
  · exact cmdM_frame _ _ _
  · exact cmdV_frame _ _ _
  · exact okFrame_err _ _ _

theorem voiceStep_ok_frame (st : MLState) (v : Nat) (st1 : MLState)
    (h : voiceStep st v = .ok st1) :
    st1.voices = st.voices ∧ ∀ w, w ≠ v → st1.streams w = st.streams w := by
  unfold voiceStep at h
  rcases hm : skip_read (st.streams v) with ⟨_ | c, r⟩ <;> rw [hm] at h
  · exact StepRes.noConfusion h
  · exact (voiceCommand_frame st v c.toUpper r).1 st1 h

theorem voiceStep_exhausted_eq (st : MLState) (v : Nat) (st1 : MLState)
    (h : voiceStep st v = .exhausted st1) :
    mmlSkip (st.streams v) = [] ∧ st1 = setStream st v [] := by
  unfold voiceStep skip_read at h
  rcases hm : (st.streams v).dropWhile isWs with _ | ⟨d, r⟩ <;> rw [hm] at h
  · refine ⟨hm, ?_⟩
    cases h
    rfl
  · exact absurd h ((voiceCommand_frame st v d.toUpper r).2 st1)

theorem erase_getElem_list (l : List Nat) (i : Nat) (hnd : l.Nodup)
    (h : i < l.length) :
    l.erase (l.get ⟨i, h⟩) = l.take i ++ l.drop (i + 1) := by
  rw [List.get_eq_getElem, ← List.eraseIdx_indexOf_eq_erase,
    List.indexOf_getElem hnd i h, List.eraseIdx_eq_take_drop_succ]

/-- When no active voice is exhausted, the pass from index `i` behaves as the
claim states: one unit from each remaining listed voice, in order. -/
theorem pass_eq_stepEach_aux (fuel : Nat) : ∀ (st : MLState) (i : Nat),
    st.voices.Nodup →
    st.voices.length - i < fuel →
    (∀ w ∈ st.voices.drop i, mmlSkip (st.streams w) ≠ []) →
    playPassIdx fuel st i = stepEach st (st.voices.drop i) := by
  induction fuel with
  | zero => intro st i _ hlen _; omega
  | succ fuel ih =>
    intro st i hnd hlen hne
    simp only [playPassIdx]
    by_cases hi : i < st.voices.length
    · rw [dif_pos hi]
      have hdrop : st.voices.drop i =
          st.voices.get ⟨i, hi⟩ :: st.voices.drop (i + 1) := by
        rw [List.get_eq_getElem]
        exact List.drop_eq_getElem_cons hi
      have hvmem : st.voices.get ⟨i, hi⟩ ∈ st.voices.drop i := by
        rw [hdrop]; exact List.mem_cons_self _ _
      rcases hstep : voiceStep st (st.voices.get ⟨i, hi⟩) with st1 | st1 | e
      · exact absurd (voiceStep_exhausted_eq st _ st1 hstep).1
          (hne _ hvmem)
      · rw [hdrop]
        simp only [stepEach, hstep]
        have hfr := voiceStep_ok_frame st _ st1 hstep
        have hnodrop : (st.voices.drop i).Nodup :=
          hnd.sublist (List.drop_sublist _ _)
        rw [ih st1 (i + 1) (by rw [hfr.1]; exact hnd)
          (by rw [hfr.1]; omega) ?_, hfr.1]
        intro w hw
        rw [hfr.1] at hw
        by_cases hwv : w = st.voices.get ⟨i, hi⟩
        · subst hwv
          rw [hdrop] at hnodrop
          exact absurd hw (List.nodup_cons.1 hnodrop).1
        · rw [hfr.2 w hwv]
          exact hne w (by rw [hdrop]; exact List.mem_cons_of_mem _ hw)
      · rw [hdrop]
        simp only [stepEach, hstep]
    · rw [dif_neg hi]
      rw [List.drop_eq_nil_of_le (le_of_not_lt hi)]
      rfl

/-- Voices before the current iterator position are never removed by the rest
of the pass. -/
theorem pass_take_mem (fuel : Nat) : ∀ (st : MLState) (i : Nat) (st2 : MLState),
    st.voices.Nodup →
    playPassIdx fuel st i = .ok st2 →
    ∀ w ∈ st.voices.take i, w ∈ st2.voices := by
  induction fuel with
  | zero => intro st i st2 _ h; exact Except.noConfusion h
  | succ fuel ih =>
    intro st i st2 hnd h w hw
    simp only [playPassIdx] at h
    by_cases hi : i < st.voices.length
    · rw [dif_pos hi] at h
      rcases hstep : voiceStep st (st.voices.get ⟨i, hi⟩) with st1 | st1 | e <;>
        simp only [hstep] at h
      · have he := voiceStep_exhausted_eq st _ st1 hstep
        have hv1 : st1.voices = st.voices := by rw [he.2]; rfl
        have herase : st1.voices.erase (st.voices.get ⟨i, hi⟩) =
            st.voices.take i ++ st.voices.drop (i + 1) := by
          rw [hv1]; exact erase_getElem_list _ _ hnd hi
        refine ih _ (i + 1) st2 ?_ h w ?_
        · show (st1.voices.erase _).Nodup
          rw [hv1]
          exact hnd.erase _
        · show w ∈ (st1.voices.erase _).take (i + 1)
          rw [herase, List.take_append_eq_append_take,
            List.take_of_length_le (by
              rw [List.length_take]
              omega)]
          exact List.mem_append_left _ hw
      · have hfr := voiceStep_ok_frame st _ st1 hstep
        refine ih st1 (i + 1) st2 (by rw [hfr.1]; exact hnd) h w ?_
        rw [hfr.1, List.take_succ]
        exact List.mem_append_left _ hw
      · exact Except.noConfusion h
    · rw [dif_neg hi] at h
      cases h
      exact (List.take_sublist i st.voices).subset hw
/-- A voice that is removed during a pass was exhausted at the pass start. -/
theorem pass_removed_exhausted (fuel : Nat) :
    ∀ (st : MLState) (i : Nat) (st2 : MLState) (v : Nat),
    st.voices.Nodup →
    playPassIdx fuel st i = .ok st2 →
    v ∈ st.voices.drop i → v ∉ st2.voices →
    mmlSkip (st.streams v) = [] := by
  induction fuel with
  | zero => intro st i st2 v _ h; exact Except.noConfusion h
  | succ fuel ih =>
    intro st i st2 v hnd h hmem hv2
    simp only [playPassIdx] at h
    by_cases hi : i < st.voices.length
    · rw [dif_pos hi] at h
      have hdrop : st.voices.drop i =
          st.voices.get ⟨i, hi⟩ :: st.voices.drop (i + 1) := by
        rw [List.get_eq_getElem]
        exact List.drop_eq_getElem_cons hi
      rcases hstep : voiceStep st (st.voices.get ⟨i, hi⟩) with st1 | st1 | e <;>
        simp only [hstep] at h
      · have he := voiceStep_exhausted_eq st _ st1 hstep
        have hv1 : st1.voices = st.voices := by rw [he.2]; rfl
        by_cases hvu : v = st.voices.get ⟨i, hi⟩
        · rw [hvu]
          exact he.1
        · have hvin : v ∈ st1.voices.erase (st.voices.get ⟨i, hi⟩) := by
            rw [hv1]
            exact (List.mem_erase_of_ne hvu).2
              ((List.drop_sublist _ _).subset hmem)
          have hnd1 : (st1.voices.erase (st.voices.get ⟨i, hi⟩)).Nodup := by
            rw [hv1]; exact hnd.erase _
          have hsplit := (List.take_append_drop (i + 1)
            (st1.voices.erase (st.voices.get ⟨i, hi⟩))).symm
          rcases List.mem_append.1 (hsplit ▸ hvin) with htk | hdr
          · exact absurd (pass_take_mem fuel _ (i + 1) st2 hnd1 h v htk) hv2
          · have hconc := ih _ (i + 1) st2 v hnd1 h hdr hv2
            have hstr : st1.streams v = st.streams v := by
              rw [he.2]
              show (if v = st.voices.get ⟨i, hi⟩ then ([] : List Char)
                else st.streams v) = st.streams v
              rw [if_neg hvu]
            rwa [hstr] at hconc
      · have hfr := voiceStep_ok_frame st _ st1 hstep
        by_cases hvu : v = st.voices.get ⟨i, hi⟩
        · exfalso
          apply hv2
          refine pass_take_mem fuel st1 (i + 1) st2 (by rw [hfr.1]; exact hnd)
            h v ?_
          rw [hfr.1, List.take_succ, hvu]
          refine List.mem_append_right _ ?_
          rw [List.getElem?_eq_getElem hi]
          simp [List.get_eq_getElem]
        · have hvm : v ∈ st.voices.drop (i + 1) := by
            rw [hdrop] at hmem
            rcases List.mem_cons.1 hmem with hvv | hvv
            · exact absurd hvv hvu
            · exact hvv
          have hconc := ih st1 (i + 1) st2 v (by rw [hfr.1]; exact hnd) h
            (by rw [hfr.1]; exact hvm) hv2
          rwa [hfr.2 v hvu] at hconc
      · exact Except.noConfusion h
    · rw [dif_neg hi] at h
      cases h
      exact absurd ((List.drop_sublist _ _).subset hmem) hv2

theorem playLoopF_stops_empty (fuel : Nat) (st : MLState)
    (h : st.voices = []) : playLoopF (fuel + 1) st = .ok st := by
  simp only [playLoopF, if_pos h]

theorem playLoopF_ok_empty (fuel : Nat) : ∀ (st st2 : MLState),
    playLoopF fuel st = .ok st2 → st2.voices = [] := by
  induction fuel with
  | zero => intro st st2 h; exact Except.noConfusion h
  | succ fuel ih =>
    intro st st2 h
    simp only [playLoopF] at h
    by_cases he : st.voices = []
    · rw [if_pos he] at h
      cases h
      exact he
    · rw [if_neg he] at h
      rcases hp : playPassIdx (st.voices.length + 1) st 0 with e | st1 <;>
        simp only [hp] at h
      · exact Except.noConfusion h
      · exact ih st1 st2 h

/-- C2 amended — the `while` loop scans the voices in list order, but strict
round-robin holds only for passes in which no voice's source is exhausted:
such a pass consumes exactly one lexical unit from every active voice, in
order (it coincides with `stepEach`), and removes no voice.  A voice that is
removed during a pass was exhausted at the pass start, and a voice is removed
only on exhaustion; however, the in-place removal (`voices.remove` inside
`for voice in voices`) makes the iterator skip the voice that shifts into the
removed position, so that voice consumes nothing for the remainder of that
pass (see the counterexample).  The loop stops as soon as the active list is
empty, and when it ends normally the active list is empty. -/
theorem C2_round_robin_amended (st : MLState) (fuel : Nat) (st2 : MLState)
    (v : Nat) :
    (st.voices.Nodup →
      (∀ w ∈ st.voices, mmlSkip (st.streams w) ≠ []) →
      playPassIdx (st.voices.length + 1) st 0 = stepEach st st.voices) ∧
    (st.voices.Nodup →
      playPassIdx (st.voices.length + 1) st 0 = .ok st2 →
      v ∈ st.voices → v ∉ st2.voices →
      mmlSkip (st.streams v) = []) ∧
    (st.voices = [] → playLoopF (fuel + 1) st = .ok st) ∧
    (playLoopF fuel st = .ok st2 → st2.voices = []) := by
  refine ⟨?_, ?_, ?_, ?_⟩
  · intro hnd hne
    have hq := pass_eq_stepEach_aux (st.voices.length + 1) st 0 hnd (by omega)
      (by simpa using hne)
    simpa using hq
  · intro hnd hp hv hv2
    exact pass_removed_exhausted (st.voices.length + 1) st 0 st2 v hnd hp
      (by simpa using hv) hv2
  · exact playLoopF_stops_empty fuel st
  · exact playLoopF_ok_empty fuel st st2

theorem C2_round_robin_amended_witness :
    (playPassIdx ((mkML3 ['A'] ['B'] ['C']).voices.length + 1)
        (mkML3 ['A'] ['B'] ['C']) 0 =
      stepEach (mkML3 ['A'] ['B'] ['C']) (mkML3 ['A'] ['B'] ['C']).voices) ∧
    playLoopF 1 { mkML3 [] [] [] with voices := [] } =
      .ok { mkML3 [] [] [] with voices := [] } :=
  ⟨(C2_round_robin_amended (mkML3 ['A'] ['B'] ['C']) 0 (mkML3 [] [] []) 0).1
      (by decide) (by decide),
   (C2_round_robin_amended { mkML3 [] [] [] with voices := [] } 0
      (mkML3 [] [] []) 0).2.2.1 rfl⟩

/-! ### Memory model (machine.py, class `Memory`, lines 217 to 637)

The collaborator objects (font store, video-mode object, program/data store,
keyboard, devices) are external interfaces; they are modelled as observation
and update functions inside the state, with bulk video access modelled as
pointwise access over the range. -/

/-- The two error conditions of the memory operations: the protection check
(`raise error.RunError(error.IFC)`, machine.py lines 262 to 263 and the
analogous lines of `poke_`, `bload_`, `bsave_`) and the poke value range
check.  Modelled from the spec: `error.range_check(0, 255, val)` lives in
error.py, which is not in this subset; the spec calls it "a distinct
out-of-range condition" of the illegal-function-call error. -/
inductive MemErr where
  | protIFC
  | outOfRange
deriving DecidableEq

/-- Modelled from the spec: `values.to_int(x, unsigned=True)` (values.py, not
in this subset) yields a 16-bit value; negative inputs wrap modulo 65536
("negative offsets wrap modulo 65536 before combination", spec section 3). -/
def to_int_unsigned (x : Int) : Int := if x < 0 then x + 65536 else x

def video_segment : Int := 0xa000

def rom_segment : Int := 0xf000

def ram_font_segment : Int := 0xc000

def rom_font_addr : Int := 0xfa6e

def ram_font_addr : Int := 0x500

def key_buffer_offset : Int := 30

/-- The state of the `Memory` object and of the collaborator objects that the
memory operations read or write. -/
structure MemState where
  prog_protected : Bool
  run_mode : Bool
  segment : Int
  data_segment : Int
  tandy_syntax : Bool
  peek_values : Int → Option Int
  font : Nat → Nat → Int
  cp_ok : Nat → Bool
  videoMem : Int → Int
  dataMem : Int → Int
  monitor_mono : Bool
  com1 : Bool
  com2 : Bool
  lpt1 : Bool
  lpt2 : Bool
  lpt3 : Bool
  keyboard_mod : Int
  keypad_ascii : Int
  kb_start : Int
  kb_stop : Int
  ring_char : Int → Int
  ring_scan : Int → Int
  colorswitch : Int
  is_text_mode : Bool
  mda_like : Bool
  mode_width : Int
  mode_name : String
  page_size : Int
  current_col : Int
  current_row : Int
  cursor_to : Int
  cursor_from : Int
  vpagenum : Int
  palette0 : Int
  cga4_num : Int
  border_attr : Int
  blink_enabled : Bool

/-- `Memory._get_rom_memory` (machine.py lines 432 to 439). -/
def get_rom_memory (st : MemState) (addr : Int) : Int :=
  let a := addr - (rom_segment * 16 + rom_font_addr)
  let char := a.fdiv 8
  if char > 127 ∨ char < 0 then -1
  else st.font char.toNat (a.emod 8).toNat

/-- `Memory._get_font_memory` (machine.py lines 441 to 448). -/
def get_font_memory (st : MemState) (addr : Int) : Int :=
  let a := addr - (ram_font_segment * 16 + ram_font_addr)
  let char := a.fdiv 8 + 128
  if char < 128 ∨ char > 254 then -1
  else st.font char.toNat (a.emod 8).toNat

/-- `Memory._set_font_memory` (machine.py lines 450 to 460); the glyph
rebuild notification is an external effect with no state modelled here. -/
def set_font_memory (st : MemState) (addr value : Int) : MemState :=
  let a := addr - (ram_font_segment * 16 + ram_font_addr)
  let char := a.fdiv 8 + 128
  if char < 128 ∨ char > 254 then st
  else if st.cp_ok char.toNat then
    { st with font := fun ch row =>
        if ch = char.toNat ∧ row = (a.emod 8).toNat then value
        else st.font ch row }
  else st

/-- `Memory._get_video_memory` (machine.py lines 414 to 416): one byte read
from the video-mode object. -/
def get_video_memory (st : MemState) (addr : Int) : Int := st.videoMem addr

def set_video_memory (st : MemState) (addr val : Int) : MemState :=
  { st with videoMem := fun x => if x = addr then val else st.videoMem x }

/-- Integer range `[a, b)` as a list. -/
def intRange (a b : Int) : List Int :=
  (List.range (b - a).toNat).map (fun k => a + (k : Int))

/-- Bulk video read (machine.py lines 422 to 424), modelled pointwise. -/
def get_video_memory_block (st : MemState) (addr length : Int) : List Int :=
  (intRange addr (addr + length)).map st.videoMem

/-- Bulk video write (machine.py lines 426 to 428), modelled pointwise. -/
def set_video_memory_block : MemState → Int → List Int → MemState
  | st, _, [] => st
  | st, addr, b :: rest =>
      set_video_memory_block (set_video_memory st addr b) (addr + 1) rest

/-- The screen-mode number table (machine.py lines 553 to 561): dictionary
lookup with `0xff` on a missing key. -/
def mode_num_lookup (name : String) : Int :=
  if name = "640x200x2" then 6
  else if name = "160x200x16" then 8
  else if name = "320x200x16pcjr" then 9
  else if name = "640x200x4" then 10
  else if name = "320x200x16" then 13
  else if name = "640x200x16" then 14
  else if name = "640x350x4" then 15
  else if name = "640x350x16" then 16
  else if name = "640x400x2" then 0x40
  else if name = "320x200x4pcjr" then 4
  else 0xff

/-- `Memory._get_low_memory` (machine.py lines 465 to 607): the synthetic
BIOS data-area table; unmapped addresses return the -1 sentinel. -/
def get_low_memory (st : MemState) (addr : Int) : Int :=
  if addr = 124 then ram_font_addr.emod 256
  else if addr = 125 then ram_font_addr.fdiv 256
  else if addr = 126 then ram_font_segment.emod 256
  else if addr = 127 then ram_font_segment.fdiv 256
  else if addr = 1040 then (if st.monitor_mono then 48 + 6 else 32 + 6)
  else if addr = 1041 then
    2 * ((if st.com1 then 1 else 0) + (if st.com2 then 1 else 0)) + 16 +
      64 * ((if st.lpt1 then 1 else 0) + (if st.lpt2 then 1 else 0) +
        (if st.lpt3 then 1 else 0))
  else if addr = 1047 then st.keyboard_mod
  else if addr = 1048 then 0
  else if addr = 1049 then st.keypad_ascii.emod 256
  else if addr = 1050 then (st.kb_start * 2 + key_buffer_offset).emod 256
  else if addr = 1051 then (st.kb_start * 2 + key_buffer_offset).fdiv 256
  else if addr = 1052 then (st.kb_stop * 2 + key_buffer_offset).emod 256
  else if addr = 1053 then (st.kb_stop * 2 + key_buffer_offset).fdiv 256
  else if 1024 + key_buffer_offset ≤ addr ∧
      addr < 1024 + key_buffer_offset + 32 then
    let index := (addr - 1024 - key_buffer_offset).fdiv 2
    let odd := (addr - 1024 - key_buffer_offset).emod 2
    if odd = 1 then st.ring_scan index
    else st.ring_char index
  else if addr = 1097 then
    (let cval := st.colorswitch.emod 2
     if st.is_text_mode then
       (if st.mda_like ∧ st.mode_width = 80 then 7
        else (if st.mode_width = 40 then 2 else 0) + cval)
     else if st.mode_name = "320x200x4" then 4 + cval
     else mode_num_lookup st.mode_name)
  else if addr = 1098 then st.mode_width.emod 256
  else if addr = 1099 then st.mode_width.fdiv 256
  else if addr = 1100 then st.page_size.emod 256
  else if addr = 1101 then st.page_size.fdiv 256
  else if 1104 ≤ addr ∧ addr < 1120 ∧ (addr - 1104).emod 2 = 0 then
    st.current_col - 1
  else if 1105 ≤ addr ∧ addr < 1120 ∧ (addr - 1105).emod 2 = 0 then
    st.current_row - 1
  else if addr = 1120 then st.cursor_to
  else if addr = 1121 then st.cursor_from
  else if addr = 1122 then st.vpagenum
  else if addr = 1125 then
    (if st.mode_width = 80 then 1 else 0) +
      (if st.is_text_mode then 0 else 2) + st.colorswitch * 4 + 8 +
      (if st.mode_name = "640x200x2" then 16 else 0) +
      (if st.blink_enabled then 32 else 0)
  else if addr = 1126 then
    (if st.mode_name = "320x200x4" then st.palette0 + 32 * st.cga4_num
     else if st.is_text_mode then st.border_attr.emod 16
     else -1)
  else -1

/-- `Memory._set_low_memory` (machine.py lines 609 to 636): only the keyboard
modifier byte, the two ring-buffer boundary pointers and the ring slots are
writable; everything else silently does nothing.  A ring-slot character
write of 0 or 0xe0 stores the empty character (represented as 0 here). -/
def set_low_memory (st : MemState) (addr value : Int) : MemState :=
  if addr = 1047 then { st with keyboard_mod := value }
  else if addr = 1050 then
    { st with kb_start := (value - key_buffer_offset).fdiv 2 }
  else if addr = 1052 then
    { st with kb_stop := (value - key_buffer_offset).fdiv 2 }
  else if 1024 + key_buffer_offset ≤ addr ∧
      addr < 1024 + key_buffer_offset + 32 then
    let index := (addr - 1024 - key_buffer_offset).fdiv 2
    let odd := (addr - 1024 - key_buffer_offset).emod 2
    if odd = 1 then
      { st with ring_scan := fun i => if i = index then value
          else st.ring_scan i }
    else if value = 0 ∨ value = 0xe0 then
      { st with ring_char := fun i => if i = index then 0
          else st.ring_char i }
    else
      { st with ring_char := fun i => if i = index then value
          else st.ring_char i }
  else st

/-- `Memory._get_memory` (machine.py lines 348 to 368): the peek-override
dictionary first (always empty: `__init__` line 255 sets `{}`), then region
dispatch with each region's value clamped below at 0. -/
def get_memory (st : MemState) (addr : Int) : Int :=
  match st.peek_values addr with
  | some v => v
  | none =>
    if addr ≥ rom_segment * 16 then max 0 (get_rom_memory st addr)
    else if addr ≥ ram_font_segment * 16 then max 0 (get_font_memory st addr)
    else if addr ≥ video_segment * 16 then max 0 (get_video_memory st addr)
    else if addr ≥ st.data_segment * 16 then max 0 (st.dataMem addr)
    else if addr ≥ 0 then max 0 (get_low_memory st addr)
    else 0

/-- `Memory._set_memory` (machine.py lines 370 to 384): the ROM region
silently ignores writes. -/
def set_memory (st : MemState) (addr val : Int) : MemState :=
  if addr ≥ rom_segment * 16 then st
  else if addr ≥ ram_font_segment * 16 then set_font_memory st addr val
  else if addr ≥ video_segment * 16 then set_video_memory st addr val
  else if addr ≥ st.data_segment * 16 then
    { st with dataMem := fun x => if x = addr then val else st.dataMem x }
  else if addr ≥ 0 then set_low_memory st addr val
  else st

/-- `Memory.peek_` (machine.py lines 259 to 266): protection check, then
unsigned address conversion, segment combination and region read. -/
def peek_ (st : MemState) (x : Int) : Except MemErr Int :=
  if st.prog_protected ∧ ¬ st.run_mode then .error .protIFC
  else .ok (get_memory st (to_int_unsigned x + st.segment * 16))

/-- `Memory.poke_` (machine.py lines 268 to 279): the address argument is
converted first, then the protection check runs, then the value's range
check, then the (vacuous) negative wrap and the region write. -/
def poke_ (st : MemState) (x v : Int) : Except MemErr MemState :=
  let addr := to_int_unsigned x
  if st.prog_protected ∧ ¬ st.run_mode then .error .protIFC
  else if v < 0 ∨ 255 < v then .error .outOfRange
  else
    let addr := if addr < 0 then addr + 65536 else addr
    .ok (set_memory st (addr + st.segment * 16) v)

/-- The interpreter-visible memory state after a POKE statement: an error is
raised before `_set_memory` runs (machine.py lines 271 to 279), so a failing
poke leaves the memory state unchanged. -/
def poke_result (st : MemState) (x v : Int) : MemState :=
  match poke_ st x v with
  | .ok st2 => st2
  | .error _ => st

/-- Python list slicing `l[:k]` (negative `k` drops from the end). -/
def pyTake (l : List Int) (k : Int) : List Int :=
  if 0 ≤ k then l.take k.toNat else l.take (max 0 ((l.length : Int) + k)).toNat

/-- Python list slicing `l[k:]`. -/
def pyDrop (l : List Int) (k : Int) : List Int :=
  if 0 ≤ k then l.drop k.toNat else l.drop (max 0 ((l.length : Int) + k)).toNat

/-- The byte-by-byte tail of `_set_memory_block` (machine.py lines 407
to 408). -/
def set_mem_fold : MemState → Int → List Int → MemState
  | st, _, [] => st
  | st, addr, b :: rest => set_mem_fold (set_memory st addr b) (addr + 1) rest

/-- `Memory._set_memory_block` (machine.py lines 399 to 408): the video span
is written through the bulk video path, the rest byte by byte. -/
def set_memory_block (st : MemState) (addr : Int) (buf : List Int) : MemState :=
  if addr ≥ video_segment * 16 then
    let video_len := 0x20000 - (addr - video_segment * 16)
    let st1 := set_video_memory_block st addr (pyTake buf video_len)
    set_mem_fold st1 (addr + video_len) (pyDrop buf video_len)
  else set_mem_fold st addr buf

/-- `Memory._get_memory_block` (machine.py lines 386 to 397). -/
def get_memory_block (st : MemState) (addr length : Int) : List Int :=
  if addr ≥ video_segment * 16 then
    let video_len := 0x20000 - (addr - video_segment * 16)
    get_video_memory_block st addr (min length video_len) ++
      (intRange (addr + video_len) (addr + video_len + (length - video_len))).map
        (fun a => max 0 (get_memory st a))
  else (intRange addr (addr + length)).map (fun a => max 0 (get_memory st a))

/-- `Memory.bload_` (machine.py lines 281 to 303): protection check; the
file's own segment and offset and its bytes are external inputs; a trailing
end-of-file marker byte 0x1a is trimmed, and the Tandy variant drops seven
further trailing bytes; then the block is written. -/
def bload_ (st : MemState) (offset : Option Int) (fseg foffset : Int)
    (content : List Int) : Except MemErr MemState :=
  if st.prog_protected ∧ ¬ st.run_mode then .error .protIFC
  else
    let off := match offset with
      | none => foffset
      | some o => to_int_unsigned o
    let buf := if content ≠ [] ∧ content.getLast? = some 0x1a
      then pyTake content (-1) else content
    let buf := if st.tandy_syntax then pyTake buf (-7) else buf
    .ok (set_memory_block st (fseg * 16 + off) buf)

/-- `Memory.bsave_` (machine.py lines 305 to 320): protection check, then the
memory block is written to the file; on Tandy a synthetic header follows
(magic byte then segment, offset, length as little-endian 16-bit words;
the magic byte 0xfd is modelled from the spec, `devices.type_to_magic` not
being in this subset).  The file write is the returned byte list; the memory
state is unchanged. -/
def bsave_ (st : MemState) (offset length : Int) : Except MemErr (List Int) :=
  if st.prog_protected ∧ ¬ st.run_mode then .error .protIFC
  else
    let off := to_int_unsigned offset
    let len := to_int_unsigned length
    .ok (get_memory_block st (st.segment * 16 + off) len ++
      (if st.tandy_syntax then
        [0xfd, st.segment.emod 256, (st.segment.fdiv 256).emod 256,
         off.emod 256, (off.fdiv 256).emod 256,
         len.emod 256, (len.fdiv 256).emod 256]
       else []))

/-- `Memory.def_seg_` (machine.py lines 322 to 330). -/
def def_seg_ (st : MemState) (segment : Option Int) : MemState :=
  match segment with
  | none => { st with segment := st.data_segment }
  | some s => { st with segment := if s < 0 then s + 0x10000 else s }

/-- A concrete memory state for witnesses and counterexamples. -/
def mkMem (prot run : Bool) : MemState :=
  { prog_protected := prot, run_mode := run, segment := 0x13d,
    data_segment := 0x13d, tandy_syntax := false,
    peek_values := fun _ => none, font := fun _ _ => 0,
    cp_ok := fun _ => true, videoMem := fun _ => 0, dataMem := fun _ => 0,
    monitor_mono := false, com1 := false, com2 := false, lpt1 := false,
    lpt2 := false, lpt3 := false, keyboard_mod := 0, keypad_ascii := 0,
    kb_start := 0, kb_stop := 0, ring_char := fun _ => 0,
    ring_scan := fun _ => 0, colorswitch := 0, is_text_mode := true,
    mda_like := false, mode_width := 80, mode_name := "80x25text",
    page_size := 4096, current_col := 1, current_row := 1, cursor_to := 7,
    cursor_from := 6, vpagenum := 0, palette0 := 0, cga4_num := 1,
    border_attr := 0, blink_enabled := true }

/-- C5 — each of peek, poke, bload and bsave raises the protection error
exactly when the program store's protected flag is set and the interpreter is
not in run mode (machine.py lines 262, 271, 283 and 307), and never raises
that error otherwise. -/
theorem C5_protection_gate (st : MemState) (x v off len : Int)
    (offset : Option Int) (fseg foffset : Int) (content : List Int) :
    ((peek_ st x = .error .protIFC) ↔
      (st.prog_protected ∧ ¬ st.run_mode)) ∧
    ((poke_ st x v = .error .protIFC) ↔
      (st.prog_protected ∧ ¬ st.run_mode)) ∧
    ((bload_ st offset fseg foffset content = .error .protIFC) ↔
      (st.prog_protected ∧ ¬ st.run_mode)) ∧
    ((bsave_ st off len = .error .protIFC) ↔
      (st.prog_protected ∧ ¬ st.run_mode)) := by
  refine ⟨?_, ?_, ?_, ?_⟩
  · constructor
    · intro h
      by_contra hp
      simp only [peek_] at h
      rw [if_neg hp] at h
      exact Except.noConfusion h
    · intro hp
      simp only [peek_]
      rw [if_pos hp]
  · constructor
    · intro h
      by_contra hp
      simp only [poke_] at h
      rw [if_neg hp] at h
      split at h
      · exact absurd (Except.error.inj h) (by simp)
      · exact Except.noConfusion h
    · intro hp
      simp only [poke_]
      rw [if_pos hp]
  · constructor
    · intro h
      by_contra hp
      simp only [bload_] at h
      rw [if_neg hp] at h
      exact Except.noConfusion h
    · intro hp
      simp only [bload_]
      rw [if_pos hp]
  · constructor
    · intro h
      by_contra hp
      simp only [bsave_] at h
      rw [if_neg hp] at h
      exact Except.noConfusion h
    · intro hp
      simp only [bsave_]
      rw [if_pos hp]

/-- C6 counterexample — with the program protected and the interpreter not in
run mode, a poke of the out-of-range value 300 fails with the protection
error, not with the out-of-range error: the protection check precedes the
range check (machine.py lines 271 to 275), so the claim's "fails with the
out-of-range error exactly when v is outside [0,255]" does not hold in every
state. -/
theorem C6_counterexample :
    poke_ (mkMem true false) 0 300 = .error .protIFC ∧
    poke_ (mkMem true false) 0 300 ≠ .error .outOfRange := by
  have h : poke_ (mkMem true false) 0 300 = .error .protIFC := rfl
  refine ⟨h, ?_⟩
  rw [h]
  simp

/-- C6 amended — whenever the protection condition does not hold, poke fails
with the out-of-range error exactly when the value is outside [0, 255]; and
whenever poke fails (with either error) no memory state has been modified,
because every error is raised before `_set_memory` runs (machine.py lines
271 to 279). -/
theorem C6_poke_out_of_range (st : MemState) (x v : Int)
    (hprot : ¬ (st.prog_protected ∧ ¬ st.run_mode)) :
    (poke_ st x v = .error .outOfRange ↔ (v < 0 ∨ 255 < v)) ∧
    (∀ e, poke_ st x v = .error e → poke_result st x v = st) := by
  constructor
  · simp only [poke_]
    rw [if_neg hprot]
    constructor
    · intro h
      by_contra hr
      rw [if_neg hr] at h
      exact Except.noConfusion h
    · intro hr
      rw [if_pos hr]
  · intro e h
    simp only [poke_result, h]

theorem C6_poke_out_of_range_witness :
    poke_ (mkMem false false) 0 300 = .error .outOfRange ∧
    poke_result (mkMem false false) 0 300 = mkMem false false :=
  ⟨(C6_poke_out_of_range (mkMem false false) 0 300 (by decide)).1.2
      (by decide),
   (C6_poke_out_of_range (mkMem false false) 0 300 (by decide)).2 .outOfRange
      ((C6_poke_out_of_range (mkMem false false) 0 300 (by decide)).1.2
        (by decide))⟩

/-- The synthetic low-memory addresses that `_get_low_memory` maps (the
branch conditions of machine.py lines 471 to 606). -/
def lowMapped (addr : Int) : Prop :=
  addr = 124 ∨ addr = 125 ∨ addr = 126 ∨ addr = 127 ∨ addr = 1040 ∨
  addr = 1041 ∨ addr = 1047 ∨ addr = 1048 ∨ addr = 1049 ∨ addr = 1050 ∨
  addr = 1051 ∨ addr = 1052 ∨ addr = 1053 ∨
  (1054 ≤ addr ∧ addr < 1086) ∨ addr = 1097 ∨ addr = 1098 ∨ addr = 1099 ∨
  addr = 1100 ∨ addr = 1101 ∨ (1104 ≤ addr ∧ addr < 1120) ∨ addr = 1120 ∨
  addr = 1121 ∨ addr = 1122 ∨ addr = 1125 ∨ addr = 1126

/-- Addresses outside the synthetic table return the -1 sentinel
(machine.py line 607). -/
theorem get_low_memory_unmapped (st : MemState) (addr : Int)
    (h : ¬ lowMapped addr) : get_low_memory st addr = -1 := by
  unfold lowMapped at h
  push_neg at h
  obtain ⟨h1, h2, h3, h4, h5, h6, h7, h8, h9, h10, h11, h12, h13, h14, h15,
    h16, h17, h18, h19, h20, h21, h22, h23, h24, h25⟩ := h
  unfold get_low_memory key_buffer_offset
  rw [if_neg h1, if_neg h2, if_neg h3, if_neg h4, if_neg h5, if_neg h6,
    if_neg h7, if_neg h8, if_neg h9, if_neg h10, if_neg h11, if_neg h12,
    if_neg h13, if_neg (by omega), if_neg h15, if_neg h16, if_neg h17,
    if_neg h18, if_neg h19, if_neg (by omega), if_neg (by omega),
    if_neg h21, if_neg h22, if_neg h23, if_neg h24, if_neg h25]

/-- C7 — for every effective address below the data segment base that is not
a mapped synthetic low-memory address, peek returns 0: the low-memory handler
returns the -1 sentinel and the dispatcher clamps it to 0 (machine.py lines
348 to 368 and 465 to 607).  The hypotheses fix the context: the protection
check passes, the peek-override dictionary is empty (as `__init__` line 255
always makes it), the argument is a BASIC integer, the segment register is
nonnegative, and the data segment sits below the video segment (as in the
spec's region table). -/
theorem C7_low_unmapped_peek_zero (st : MemState) (x : Int)
    (hprot : ¬ (st.prog_protected ∧ ¬ st.run_mode))
    (hpv : st.peek_values = fun _ => none)
    (hxlo : -32768 ≤ x)
    (hsegpos : 0 ≤ st.segment)
    (hseg : st.data_segment ≤ 0xa000)
    (haddr : to_int_unsigned x + st.segment * 16 < st.data_segment * 16)
    (hunmapped : ¬ lowMapped (to_int_unsigned x + st.segment * 16)) :
    peek_ st x = .ok 0 := by
  have ha : 0 ≤ to_int_unsigned x + st.segment * 16 := by
    unfold to_int_unsigned
    split <;> omega
  simp only [peek_]
  rw [if_neg hprot]
  simp only [get_memory, hpv]
  rw [if_neg (by simp only [rom_segment]; omega),
    if_neg (by simp only [ram_font_segment]; omega),
    if_neg (by simp only [video_segment]; omega),
    if_neg (by omega), if_pos ha,
    get_low_memory_unmapped st _ hunmapped]
  norm_num

theorem C7_low_unmapped_peek_zero_witness :
    peek_ { mkMem false true with segment := 0 } 2000 = .ok 0 :=
  C7_low_unmapped_peek_zero { mkMem false true with segment := 0 } 2000
    (by decide) rfl (by decide) (by decide) (by decide) (by decide)
    (by unfold lowMapped; decide)

/-- C8 counterexample — with the program protected and the interpreter not in
run mode, a poke into the ROM region with an in-range value does raise an
error (the protection error), contradicting the claim's "poke raises no
error" as a statement about every state. -/
theorem C8_counterexample :
    poke_ { mkMem true false with segment := 0xf000 } 0 0 =
      .error .protIFC := rfl

/-- C8 amended — whenever the protection condition does not hold, a poke
whose effective address lies in the ROM region (at or above 0xF000 * 16) with
a value in [0, 255] raises no error and changes no state: `_set_memory`
ignores ROM writes (machine.py lines 372 to 374), the returned state is the
original one, and a peek of any address after the poke returns the same byte
as before. -/
theorem C8_rom_poke_noop (st : MemState) (x v : Int)
    (hprot : ¬ (st.prog_protected ∧ ¬ st.run_mode))
    (hv : 0 ≤ v ∧ v ≤ 255)
    (hx : -32768 ≤ x)
    (hrom : rom_segment * 16 ≤ to_int_unsigned x + st.segment * 16) :
    poke_ st x v = .ok st ∧
    (∀ st2, poke_ st x v = .ok st2 → ∀ y, peek_ st2 y = peek_ st y) := by
  have hnn : ¬ (to_int_unsigned x < 0) := by
    unfold to_int_unsigned
    split <;> omega
  have h1 : poke_ st x v = .ok st := by
    simp only [poke_]
    rw [if_neg hprot, if_neg (by omega), if_neg hnn]
    simp only [set_memory]
    rw [if_pos hrom]
  refine ⟨h1, fun st2 h2 y => ?_⟩
  rw [h1] at h2
  cases h2
  rfl

theorem C8_rom_poke_noop_witness :
    poke_ { mkMem false true with segment := 0xf000 } 0 7 =
      .ok { mkMem false true with segment := 0xf000 } :=
  (C8_rom_poke_noop { mkMem false true with segment := 0xf000 } 0 7
    (by decide) (by decide) (by decide) (by decide)).1

/-- Parity letters used by the serial streams (machine.py lines 109 and 191). -/
inductive Parity
  | S
  | M
  | E
  | O
  | N
deriving DecidableEq

/-- Line parameters of a serial stream, as read and written by
get_params / set_params. -/
structure SerParams where
  baud : Int
  parity : Parity
  bytesize : Int
  stopbits : Int
deriving DecidableEq

/-- Observable state of an attached serial stream: its line parameters and
the pins toggled by set_pins. -/
structure SerStream where
  params : SerParams
  rts : Bool
  dtr : Bool
  brk : Bool
deriving DecidableEq

/-- Externally visible actions of the non-serial branches of
MachinePorts.out_ (game-port reset, plane mask / plane / colorburst screen
calls, parallel-port data and control writes). -/
inductive ExtAct
  | stickResetDecay
  | setPlaneMask (v : Int)
  | setPlane (v : Int)
  | setColorburst (b : Bool)
  | lptWrite (n : Nat) (v : Int)
  | lptControl (n : Nat) (v : Int)
deriving DecidableEq

/-- Error raised by the line-control-register parity decode when the parity
bits are not one of the five mapped patterns (the dict lookup at
machine.py line 191 raises KeyError). -/
inductive PErr
  | keyError
deriving DecidableEq

/-- State of MachinePorts: the per-port baud-write-enable latches, 16-bit
baud divisors and break flags (machine.py lines 44 to 46), whether each COM
and LPT device has an attached stream, the streams themselves, and a log of
the non-serial external actions. -/
structure PortsState where
  com_enable_baud_write : Nat → Bool
  com_baud_divisor : Nat → Int
  com_break : Nat → Bool
  com_attached : Nat → Bool
  com_stream : Nat → SerStream
  lpt_attached : Nat → Bool
  ext : List ExtAct

/-- Base machine-port address of COM port n: the com_base dict
{0x3f8: 0, 0x2f8: 1} of machine.py line 41, read as port number to base. -/
def com_base : Nat → Int
  | 0 => 0x3f8
  | _ => 0x2f8

/-- Parity decode table of the line control register
(machine.py line 191): the dict {0x38 S, 0x28 M, 0x18 E, 0x8 O, 0 N};
a key outside the table is a KeyError. -/
def parity_decode (v : Int) : Option Parity :=
  if v = 0x38 then some .S
  else if v = 0x28 then some .M
  else if v = 0x18 then some .E
  else if v = 0x8 then some .O
  else if v = 0 then some .N
  else none

/-- New value of the 16-bit baud divisor after a write of val to the base
(low byte) or base+1 (high byte) address (machine.py lines 176 to 179). -/
def newDivisor (st : PortsState) (n : Nat) (addr val : Int) : Int :=
  if addr = com_base n then (Int.land (st.com_baud_divisor n) 0xff00) + val
  else val * 0x100 + (Int.land (st.com_baud_divisor n) 0xff)

/-- Divisor write (machine.py lines 175 to 183): store the new divisor;
if it is nonzero, recompute the stream's baud rate as 115200 // divisor and
set the parameters back with parity, byte size and stop bits unchanged. -/
def comDivisorWrite (st : PortsState) (n : Nat) (addr val : Int) : PortsState :=
  if newDivisor st n addr val = 0 then
    { st with com_baud_divisor :=
        fun m => if m = n then newDivisor st n addr val else st.com_baud_divisor m }
  else
    { st with
        com_baud_divisor :=
          fun m => if m = n then newDivisor st n addr val else st.com_baud_divisor m,
        com_stream :=
          fun m => if m = n then
            { st.com_stream m with params :=
               { (st.com_stream m).params with
                   baud := (115200 : Int).fdiv (newDivisor st n addr val) } }
          else st.com_stream m }

/-- Baud-write-enable latch of the line control register
(machine.py lines 186 to 187): set to true when bit 0x80 of the written
value is set, left unchanged otherwise. -/
def lcrEnable (st : PortsState) (n : Nat) (val : Int) : PortsState :=
  if (Int.land val 0x80) ≠ 0 then
    { st with com_enable_baud_write :=
        fun m => if m = n then true else st.com_enable_baud_write m }
  else st

/-- Break-condition update of the line control register
(machine.py line 189). -/
def lcrBreak (st : PortsState) (n : Nat) (val : Int) : PortsState :=
  { st with com_break :=
      fun m => if m = n then decide ((Int.land val 0x40) ≠ 0) else st.com_break m }

/-- Line-control-register write (machine.py lines 184 to 201): latch the
enable bit, update the break flag, decode parity (a KeyError aborts here,
after those two mutations), then set parity, stop bits and byte size with
the baud rate unchanged, and push the break pin state to the stream. -/
def comLCRWrite (st : PortsState) (n : Nat) (val : Int) :
    PortsState × Option PErr :=
  match parity_decode (Int.land val 0x38) with
  | none => (lcrBreak (lcrEnable st n val) n val, some .keyError)
  | some par =>
    ({ lcrBreak (lcrEnable st n val) n val with
        com_stream := fun m => if m = n then
            { (lcrBreak (lcrEnable st n val) n val).com_stream m with
                params :=
                  { ((lcrBreak (lcrEnable st n val) n val).com_stream m).params with
                      parity := par,
                      bytesize := (Int.land val 0x3) + 5,
                      stopbits := if (Int.land val 0x4) ≠ 0 then (2 : Int) else 1 },
                brk := (lcrBreak (lcrEnable st n val) n val).com_break n }
          else (lcrBreak (lcrEnable st n val) n val).com_stream m }, none)

/-- Modem-control-register write (machine.py lines 202 to 204): set the
rts and dtr pins from bits 0x2 and 0x1. -/
def comMCRWrite (st : PortsState) (n : Nat) (val : Int) : PortsState :=
  { st with com_stream := fun m => if m = n then
      { st.com_stream m with
          rts := decide ((Int.land val 0x2) ≠ 0),
          dtr := decide ((Int.land val 0x1) ≠ 0) }
    else st.com_stream m }

/-- One iteration of the serial loop of out_ for COM port n
(machine.py lines 167 to 204): skipped if no stream is attached; the
base / base+1 addresses write the baud divisor only when the enable latch
is set; base+3 is the line control register; base+4 the modem control
register. -/
def handleComPort (st : PortsState) (n : Nat) (addr val : Int) :
    PortsState × Option PErr :=
  if st.com_attached n then
    if (addr = com_base n ∨ addr = com_base n + 1) ∧ st.com_enable_baud_write n then
      (comDivisorWrite st n addr val, none)
    else if addr = com_base n + 3 then
      comLCRWrite st n val
    else if addr = com_base n + 4 then
      (comMCRWrite st n val, none)
    else (st, none)
  else (st, none)

/-- Serial fallthrough of out_: the loop over both com_base entries; an
exception from the first port's handling aborts before the second. -/
def serialOut (st : PortsState) (addr val : Int) : PortsState × Option PErr :=
  match handleComPort st 0 addr val with
  | (st1, some e) => (st1, some e)
  | (st1, none) => handleComPort st1 1 addr val

/-- MachinePorts.out_ (machine.py lines 135 to 204): game port, plane
mask, plane, colorburst and parallel ports log external actions; every other
address falls through to the serial-port loop.  For a parallel-port address,
addr = base exactly when addr is 0x378 or 0x278. -/
def out_ (st : PortsState) (addr val : Int) : PortsState × Option PErr :=
  if addr = 0x201 then ({ st with ext := st.ext ++ [.stickResetDecay] }, none)
  else if addr = 0x3c5 then ({ st with ext := st.ext ++ [.setPlaneMask val] }, none)
  else if addr = 0x3cf then ({ st with ext := st.ext ++ [.setPlane val] }, none)
  else if addr = 0x3d8 then
    ({ st with ext := st.ext ++ [.setColorburst (Int.land val 4 == 0)] }, none)
  else if addr = 0x378 ∨ addr = 0x37A ∨ addr = 0x278 ∨ addr = 0x27A then
    if st.lpt_attached (if addr ≥ 0x378 then 0 else 1) then
      if addr = 0x378 ∨ addr = 0x278 then
        ({ st with ext := st.ext ++ [.lptWrite (if addr ≥ 0x378 then 0 else 1) val] },
          none)
      else
        ({ st with ext := st.ext ++ [.lptControl (if addr ≥ 0x378 then 0 else 1) val] },
          none)
    else (st, none)
  else serialOut st addr val

/-- Initial serial stream (line parameters come from the attached device;
the concrete values are immaterial to the port logic). -/
def initStream : SerStream :=
  { params := { baud := 300, parity := .E, bytesize := 8, stopbits := 1 },
    rts := false, dtr := false, brk := false }

/-- Initial MachinePorts state (machine.py lines 44 to 46): enable latches
false, divisors 0, break flags false. -/
def initPorts (att0 att1 : Bool) : PortsState :=
  { com_enable_baud_write := fun _ => false
    com_baud_divisor := fun _ => 0
    com_break := fun _ => false
    com_attached := fun n => if n = 0 then att0 else att1
    com_stream := fun _ => initStream
    lpt_attached := fun _ => false
    ext := [] }

/-- Run a list of out_ writes in order, stopping at the first error. -/
def runOuts (st : PortsState) : List (Int × Int) → PortsState × Option PErr
  | [] => (st, none)
  | (a, v) :: ws =>
    match out_ st a v with
    | (st1, some e) => (st1, some e)
    | (st1, none) => runOuts st1 ws

/-- A COM port whose four mapped addresses are all missed leaves the state
unchanged. -/
theorem handleComPort_skip (st : PortsState) (n : Nat) (addr val : Int)
    (h1 : addr ≠ com_base n) (h2 : addr ≠ com_base n + 1)
    (h3 : addr ≠ com_base n + 3) (h4 : addr ≠ com_base n + 4) :
    handleComPort st n addr val = (st, none) := by
  unfold handleComPort
  split
  · have hc : ¬((addr = com_base n ∨ addr = com_base n + 1) ∧
        st.com_enable_baud_write n = true) := fun hc => hc.1.elim h1 h2
    rw [if_neg hc]
  · rfl

/-- A write to the base or base+1 address with the enable latch clear
leaves the state unchanged. -/
theorem handleComPort_noenable (st : PortsState) (n : Nat) (addr val : Int)
    (ha : addr = com_base n ∨ addr = com_base n + 1)
    (he : st.com_enable_baud_write n = false) :
    handleComPort st n addr val = (st, none) := by
  unfold handleComPort
  split
  · have hc : ¬((addr = com_base n ∨ addr = com_base n + 1) ∧
        st.com_enable_baud_write n = true) := by
      rintro ⟨_, hen⟩
      rw [he] at hen
      exact Bool.noConfusion hen
    have h3 : ¬(addr = com_base n + 3) := by omega
    have h4 : ¬(addr = com_base n + 4) := by omega
    rw [if_neg hc, if_neg h3, if_neg h4]
  · rfl

/-- A write to the base or base+1 address of an attached port with the
enable latch set performs the divisor write. -/
theorem handleComPort_hit (st : PortsState) (n : Nat) (addr val : Int)
    (hat : st.com_attached n = true)
    (he : st.com_enable_baud_write n = true)
    (ha : addr = com_base n ∨ addr = com_base n + 1) :
    handleComPort st n addr val = (comDivisorWrite st n addr val, none) := by
  unfold handleComPort
  rw [if_pos hat, if_pos ⟨ha, he⟩]

/-- Writes to serial addresses fall through the non-serial branches of
out_. -/
theorem out_serial_eq (st : PortsState) (addr val : Int)
    (h : addr = 0x3f8 ∨ addr = 0x3f9 ∨ addr = 0x2f8 ∨ addr = 0x2f9 ∨
      addr = 0x3fb ∨ addr = 0x3fc ∨ addr = 0x2fb ∨ addr = 0x2fc) :
    out_ st addr val = serialOut st addr val := by
  unfold out_
  rw [if_neg (by omega), if_neg (by omega), if_neg (by omega),
    if_neg (by omega), if_neg (by omega)]

/-- With the enable latch of port n clear, an out_ to that port's base or
base+1 address does nothing. -/
theorem out_noenable (st : PortsState) (n : Nat) (addr val : Int)
    (hn : n = 0 ∨ n = 1)
    (ha : addr = com_base n ∨ addr = com_base n + 1)
    (he : st.com_enable_baud_write n = false) :
    out_ st addr val = (st, none) := by
  rcases hn with rfl | rfl <;> rcases ha with rfl | rfl
  · rw [out_serial_eq st _ val (by decide)]
    unfold serialOut
    rw [handleComPort_noenable st 0 _ val (Or.inl rfl) he]
    exact handleComPort_skip st 1 _ val (by decide) (by decide) (by decide)
      (by decide)
  · rw [out_serial_eq st _ val (by decide)]
    unfold serialOut
    rw [handleComPort_noenable st 0 _ val (Or.inr rfl) he]
    exact handleComPort_skip st 1 _ val (by decide) (by decide) (by decide)
      (by decide)
  · rw [out_serial_eq st _ val (by decide)]
    unfold serialOut
    rw [handleComPort_skip st 0 _ val (by decide) (by decide) (by decide)
      (by decide)]
    exact handleComPort_noenable st 1 _ val (Or.inl rfl) he
  · rw [out_serial_eq st _ val (by decide)]
    unfold serialOut
    rw [handleComPort_skip st 0 _ val (by decide) (by decide) (by decide)
      (by decide)]
    exact handleComPort_noenable st 1 _ val (Or.inr rfl) he

/-- With the enable latch of an attached port n set, an out_ to that port's
base or base+1 address is exactly the divisor write. -/
theorem out_divisor_eq (st : PortsState) (n : Nat) (addr val : Int)
    (hn : n = 0 ∨ n = 1)
    (ha : addr = com_base n ∨ addr = com_base n + 1)
    (hat : st.com_attached n = true)
    (he : st.com_enable_baud_write n = true) :
    out_ st addr val = (comDivisorWrite st n addr val, none) := by
  rcases hn with rfl | rfl
  · rw [out_serial_eq st _ val
      (by rcases ha with rfl | rfl
          · exact Or.inl (by decide)
          · exact Or.inr (Or.inl (by decide)))]
    unfold serialOut
    rw [handleComPort_hit st 0 addr val hat he ha]
    refine handleComPort_skip _ 1 addr val ?_ ?_ ?_ ?_ <;>
      rcases ha with rfl | rfl <;> decide
  · rw [out_serial_eq st _ val
      (by rcases ha with rfl | rfl
          · exact Or.inr (Or.inr (Or.inl (by decide)))
          · exact Or.inr (Or.inr (Or.inr (Or.inl (by decide)))))]
    unfold serialOut
    rw [handleComPort_skip st 0 addr val (by rcases ha with rfl | rfl <;> decide)
      (by rcases ha with rfl | rfl <;> decide)
      (by rcases ha with rfl | rfl <;> decide)
      (by rcases ha with rfl | rfl <;> decide)]
    exact handleComPort_hit st 1 addr val hat he ha

/-- The divisor write stores exactly the new divisor at the port. -/
theorem comDivisorWrite_divisor (st : PortsState) (n : Nat) (addr val : Int) :
    (comDivisorWrite st n addr val).com_baud_divisor n =
      newDivisor st n addr val := by
  unfold comDivisorWrite
  split <;> simp

/-- With a nonzero new divisor, the stream's parameters after the divisor
write are the old ones with only the baud rate replaced by
115200 // divisor. -/
theorem comDivisorWrite_params (st : PortsState) (n : Nat) (addr val : Int)
    (h : newDivisor st n addr val ≠ 0) :
    ((comDivisorWrite st n addr val).com_stream n).params =
      { (st.com_stream n).params with
          baud := (115200 : Int).fdiv (newDivisor st n addr val) } := by
  unfold comDivisorWrite
  rw [if_neg h]
  simp

/-- With a zero new divisor, the divisor write leaves the streams
unchanged. -/
theorem comDivisorWrite_zero (st : PortsState) (n : Nat) (addr val : Int)
    (h : newDivisor st n addr val = 0) :
    (comDivisorWrite st n addr val).com_stream = st.com_stream := by
  unfold comDivisorWrite
  rw [if_pos h]

/-- The enable latch survives a divisor write unchanged. -/
theorem comDivisorWrite_enable (st : PortsState) (n : Nat) (addr val : Int)
    (m : Nat) :
    (comDivisorWrite st n addr val).com_enable_baud_write m =
      st.com_enable_baud_write m := by
  unfold comDivisorWrite
  split <;> rfl

/-- An enable latch set after the latch step of the line control register
was either already set or was latched now, by a value with bit 0x80 set,
at this port. -/
theorem lcrEnable_origin (st : PortsState) (n : Nat) (val : Int) (m : Nat)
    (h : (lcrEnable st n val).com_enable_baud_write m = true) :
    st.com_enable_baud_write m = true ∨ (m = n ∧ Int.land val 0x80 ≠ 0) := by
  unfold lcrEnable at h
  split at h
  · rename_i hv
    by_cases hm : m = n
    · exact Or.inr ⟨hm, hv⟩
    · left
      have h' : (if m = n then true else st.com_enable_baud_write m) = true := h
      rwa [if_neg hm] at h'
  · exact Or.inl h

/-- An enable latch set after a line-control-register write was either
already set or was latched by this write. -/
theorem comLCRWrite_origin (st : PortsState) (n : Nat) (val : Int) (m : Nat)
    (h : ((comLCRWrite st n val).1).com_enable_baud_write m = true) :
    st.com_enable_baud_write m = true ∨ (m = n ∧ Int.land val 0x80 ≠ 0) := by
  unfold comLCRWrite at h
  split at h
  · exact lcrEnable_origin st n val m h
  · exact lcrEnable_origin st n val m h

/-- An enable latch set after one port's handling step was either already
set or was latched by a line-control-register write to that port. -/
theorem handleComPort_origin (st : PortsState) (n : Nat) (addr val : Int)
    (m : Nat)
    (h : ((handleComPort st n addr val).1).com_enable_baud_write m = true) :
    st.com_enable_baud_write m = true ∨
      (m = n ∧ addr = com_base n + 3 ∧ Int.land val 0x80 ≠ 0) := by
  unfold handleComPort at h
  split at h
  · split at h
    · left
      have h' : (comDivisorWrite st n addr val).com_enable_baud_write m =
          true := h
      rwa [comDivisorWrite_enable] at h'
    · split at h
      · rename_i h3
        rcases comLCRWrite_origin st n val m h with h' | ⟨hm, hv⟩
        · exact Or.inl h'
        · exact Or.inr ⟨hm, h3, hv⟩
      · split at h
        · exact Or.inl h
        · exact Or.inl h
  · exact Or.inl h

/-- An enable latch set after the serial fallthrough was either already set
or was latched by a line-control-register write of this out_ call. -/
theorem serialOut_origin (st : PortsState) (a v : Int) (m : Nat)
    (h : (serialOut st a v).1.com_enable_baud_write m = true) :
    st.com_enable_baud_write m = true ∨
      (a = com_base m + 3 ∧ Int.land v 0x80 ≠ 0) := by
  unfold serialOut at h
  rcases h0 : handleComPort st 0 a v with ⟨s1, e1⟩
  cases e1 with
  | some err =>
    simp only [h0] at h
    rcases handleComPort_origin st 0 a v m (by rw [h0]; exact h) with h' | ⟨hm, h3, hv⟩
    · exact Or.inl h'
    · subst hm
      exact Or.inr ⟨h3, hv⟩
  | none =>
    simp only [h0] at h
    rcases handleComPort_origin s1 1 a v m h with h' | ⟨hm, h3, hv⟩
    · rcases handleComPort_origin st 0 a v m (by rw [h0]; exact h') with h'' | ⟨hm0, h30, hv0⟩
      · exact Or.inl h''
      · subst hm0
        exact Or.inr ⟨h30, hv0⟩
    · subst hm
      exact Or.inr ⟨h3, hv⟩

/-- An enable latch set after one out_ call was either already set or was
latched by this call, which then was a line-control-register write with bit
0x80 set. -/
theorem out_origin (st : PortsState) (a v : Int) (m : Nat)
    (h : (out_ st a v).1.com_enable_baud_write m = true) :
    st.com_enable_baud_write m = true ∨
      (a = com_base m + 3 ∧ Int.land v 0x80 ≠ 0) := by
  unfold out_ at h
  repeat' split at h
  all_goals first
    | exact serialOut_origin st a v m h
    | exact Or.inl h

/-- An enable latch set after a run of out_ calls was either already set or
was latched by a line-control-register write occurring in the run. -/
theorem runOuts_origin (n : Nat) (ws : List (Int × Int)) :
    ∀ (st stf : PortsState) (e : Option PErr),
      runOuts st ws = (stf, e) →
      stf.com_enable_baud_write n = true →
      st.com_enable_baud_write n = true ∨
        ∃ p ∈ ws, p.1 = com_base n + 3 ∧ Int.land p.2 0x80 ≠ 0 := by
  induction ws with
  | nil =>
    intro st stf e h hf
    unfold runOuts at h
    injection h with h1 h2
    subst h1
    exact Or.inl hf
  | cons w ws ih =>
    intro st stf e h hf
    obtain ⟨a, v⟩ := w
    unfold runOuts at h
    rcases h0 : out_ st a v with ⟨s1, e1⟩
    cases e1 with
    | some err =>
      simp only [h0] at h
      injection h with h1 h2
      subst h1
      rcases out_origin st a v n (by rw [h0]; exact hf) with h' | ⟨h3, hv⟩
      · exact Or.inl h'
      · exact Or.inr ⟨(a, v), List.mem_cons_self _ _, h3, hv⟩
    | none =>
      simp only [h0] at h
      rcases ih s1 stf e h hf with h' | ⟨p, hp, hcond⟩
      · rcases out_origin st a v n (by rw [h0]; exact h') with h'' | ⟨h3, hv⟩
        · exact Or.inl h''
        · exact Or.inr ⟨(a, v), List.mem_cons_self _ _, h3, hv⟩
      · exact Or.inr ⟨p, List.mem_cons_of_mem _ hp, hcond⟩

/-- C9 — a port write to a serial port's base or base+1 address updates the
low or high byte of the 16-bit baud divisor only when baud-write-enable was
previously latched: (i) with the latch clear, the write changes neither the
divisor nor the stream; (ii) with the latch set on an attached port, the
base address replaces the low byte and base+1 the high byte, and whenever
the resulting divisor is nonzero the stream's baud rate becomes
115200 // divisor with parity, byte size and stop bits unchanged (for a
zero divisor the stream is untouched); (iii) starting from the initial
state, a set latch can only originate from an out_ write to the port's
line-control register (base+3) with bit 0x80 set
(machine.py lines 163 to 187). -/
theorem C9_serial_divisor_baud (st : PortsState) (n : Nat) (addr val : Int)
    (hn : n = 0 ∨ n = 1)
    (ha : addr = com_base n ∨ addr = com_base n + 1) :
    (st.com_enable_baud_write n = false →
      (out_ st addr val).1.com_baud_divisor n = st.com_baud_divisor n ∧
      (out_ st addr val).1.com_stream n = st.com_stream n) ∧
    (st.com_enable_baud_write n = true → st.com_attached n = true →
      (out_ st addr val).2 = none ∧
      (out_ st addr val).1.com_baud_divisor n =
        (if addr = com_base n then Int.land (st.com_baud_divisor n) 0xff00 + val
         else val * 0x100 + Int.land (st.com_baud_divisor n) 0xff) ∧
      ((out_ st addr val).1.com_baud_divisor n ≠ 0 →
        ((out_ st addr val).1.com_stream n).params =
          { (st.com_stream n).params with
              baud := (115200 : Int).fdiv ((out_ st addr val).1.com_baud_divisor n) }) ∧
      ((out_ st addr val).1.com_baud_divisor n = 0 →
        (out_ st addr val).1.com_stream n = st.com_stream n)) ∧
    (∀ (att0 att1 : Bool) (ws : List (Int × Int)) (stf : PortsState)
        (e : Option PErr),
      runOuts (initPorts att0 att1) ws = (stf, e) →
      stf.com_enable_baud_write n = true →
      ∃ p ∈ ws, p.1 = com_base n + 3 ∧ Int.land p.2 0x80 ≠ 0) := by
  refine ⟨?_, ?_, ?_⟩
  · intro he
    rw [out_noenable st n addr val hn ha he]
    exact ⟨rfl, rfl⟩
  · intro he hat
    rw [out_divisor_eq st n addr val hn ha hat he]
    dsimp only
    refine ⟨rfl, comDivisorWrite_divisor st n addr val, ?_, ?_⟩
    · intro hd
      have hd' : newDivisor st n addr val ≠ 0 := by
        rwa [comDivisorWrite_divisor] at hd
      rw [comDivisorWrite_divisor]
      exact comDivisorWrite_params st n addr val hd'
    · intro hd
      have hd' : newDivisor st n addr val = 0 := by
        rwa [comDivisorWrite_divisor] at hd
      rw [comDivisorWrite_zero st n addr val hd']
  · intro att0 att1 ws stf e h hf
    rcases runOuts_origin n ws (initPorts att0 att1) stf e h hf with he | hex
    · exact Bool.noConfusion he
    · exact hex

/-- Serial state with both enable latches already set, for exercising the
divisor write. -/
def c9state : PortsState :=
  { initPorts true true with com_enable_baud_write := fun _ => true }

theorem C9_serial_divisor_baud_witness :
    (out_ c9state 0x3f8 12).2 = none ∧
    (out_ c9state 0x3f8 12).1.com_baud_divisor 0 =
      (if (0x3f8 : Int) = com_base 0
       then Int.land (c9state.com_baud_divisor 0) 0xff00 + 12
       else 12 * 0x100 + Int.land (c9state.com_baud_divisor 0) 0xff) ∧
    ((out_ c9state 0x3f8 12).1.com_baud_divisor 0 ≠ 0 →
      ((out_ c9state 0x3f8 12).1.com_stream 0).params =
        { (c9state.com_stream 0).params with
            baud := (115200 : Int).fdiv ((out_ c9state 0x3f8 12).1.com_baud_divisor 0) }) ∧
    ((out_ c9state 0x3f8 12).1.com_baud_divisor 0 = 0 →
      (out_ c9state 0x3f8 12).1.com_stream 0 = c9state.com_stream 0) :=
  (C9_serial_divisor_baud c9state 0 0x3f8 12 (Or.inl rfl)
    (Or.inl (by decide))).2.1 rfl rfl
